import Mathlib

/-!
OpenCensus to OTLP trace translation (`translator/trace/oc_to_otlp.go`).

A shallow embedding of the Go translation functions and the properties proved about them.

Modelling conventions.

* A Go pointer is an `Option`: `none` is the nil pointer.
* A Go slice produced by the translation is a `Slice`, which keeps the nil slice apart from an
  explicit empty one.  Slices and maps read from the input are only measured with `len`, ranged
  over or indexed, so they are lists (nil and empty coincide there).
* A Go map is the list of its entries in iteration order (which Go leaves unspecified).
* A protobuf `oneof` field is an interface value: unset (nil interface), or one of the generated
  wrapper pointers, which may itself be a nil pointer.
* Fixed-width integers are `Int`/`Nat`; every conversion the source writes is an explicit
  reduction modulo `2^w`.
* A function that can dereference a nil pointer returns `Except Panic`.
* `ocSpanKindToOtlp` deletes from the caller's map; the embedding returns the collection as it is
  after the call.  Every list entry is taken to be an object of its own (no two entries alias).
-/

set_option autoImplicit false

namespace tracetranslator

/-! ## Go values -/

/-- A Go run-time panic; a nil-pointer dereference is the only one the translation can raise. -/
inductive Panic where
  | nilDereference
deriving DecidableEq, Repr

/-- A Go slice value built by the translation: `nil` is the nil slice, `mk xs` a non-nil slice
holding `xs` (`mk []` is what `make([]T, 0, n)` returns). -/
inductive Slice (α : Type) where
  | nil : Slice α
  | mk (elems : List α) : Slice α
deriving DecidableEq, Repr

/-- The elements of a slice; the nil slice has none. -/
def Slice.toList {α : Type} : Slice α → List α
  | .nil => []
  | .mk xs => xs

/-- Go `len(s)`. -/
def Slice.len {α : Type} (s : Slice α) : Nat := s.toList.length

/-- Go `append(s, x)`: the result is never the nil slice. -/
def Slice.append {α : Type} (s : Slice α) (x : α) : Slice α := .mk (s.toList ++ [x])

/-- Go `m[key]` on a `map[string]*T`: the stored pointer, or nil when the key is absent. -/
def GoMap.get {V : Type} : List (String × Option V) → String → Option V
  | [], _ => none
  | (k, v) :: rest, key => if k = key then v else GoMap.get rest key

/-- Go `delete(m, key)`. -/
def GoMap.delete {V : Type} (m : List (String × Option V)) (key : String) :
    List (String × Option V) :=
  m.filter (fun kv => decide (kv.1 ≠ key))

/-- Go conversion `uint32(x)` of a signed integer. -/
def uint32 (x : Int) : Nat := (x % 4294967296).toNat

/-- Go conversion `uint64(x)` of a signed integer. -/
def uint64 (x : Int) : Nat := (x % 18446744073709551616).toNat

/-- Go conversion `int32(x)` and the wrap-around of 32-bit signed arithmetic. -/
def int32 (x : Int) : Int := (x + 2147483648) % 4294967296 - 2147483648

/-- Go conversion `int64(x)`. -/
def int64 (x : Int) : Int := (x + 9223372036854775808) % 18446744073709551616 - 9223372036854775808

/-- The bit pattern of a `float64`; the translation only copies such values. -/
structure Float64 where
  bits : Nat
deriving DecidableEq, Repr

/-- Message `timestamp.Timestamp`. -/
structure Timestamp where
  Seconds : Int
  Nanos : Int
deriving DecidableEq, Repr

end tracetranslator

/-! ## The OpenCensus (legacy) model: package `octrace` -/

namespace octrace
open tracetranslator

structure TruncatableString where
  Value : String
  TruncatedByteCount : Int
deriving DecidableEq, Repr

structure AttributeValue_StringValue where
  StringValue : Option TruncatableString
deriving DecidableEq, Repr

structure AttributeValue_IntValue where
  IntValue : Int
deriving DecidableEq, Repr

structure AttributeValue_BoolValue where
  BoolValue : Bool
deriving DecidableEq, Repr

structure AttributeValue_DoubleValue where
  DoubleValue : Float64
deriving DecidableEq, Repr

/-- The `oneof value` interface of `AttributeValue`: `unset` is the nil interface, the four named
cases hold the generated wrapper pointer (possibly nil), `other` is any other dynamic type. -/
inductive isAttributeValue_Value where
  | unset
  | StringValue (p : Option AttributeValue_StringValue)
  | IntValue (p : Option AttributeValue_IntValue)
  | BoolValue (p : Option AttributeValue_BoolValue)
  | DoubleValue (p : Option AttributeValue_DoubleValue)
  | other (tag : Nat)
deriving DecidableEq, Repr

structure AttributeValue where
  Value : isAttributeValue_Value
deriving DecidableEq, Repr

/-- Message `Span.Attributes`; `AttributeMap` is a `map[string]*AttributeValue`, the counter an
`int32`. -/
structure Span_Attributes where
  AttributeMap : List (String × Option AttributeValue)
  DroppedAttributesCount : Int
deriving DecidableEq, Repr

structure Span_Tracestate_Entry where
  Key : String
  Value : String
deriving DecidableEq, Repr

structure Span_Tracestate where
  Entries : List (Option Span_Tracestate_Entry)
deriving DecidableEq, Repr

/-- The enumeration `Span_SpanKind`; `other n` is any value besides the three named ones. -/
inductive Span_SpanKind where
  | SPAN_KIND_UNSPECIFIED
  | SERVER
  | CLIENT
  | other (n : Int)
deriving DecidableEq, Repr

structure Span_TimeEvent_Annotation where
  Description : Option TruncatableString
  Attributes : Option Span_Attributes
deriving DecidableEq, Repr

/-- Message `Span.TimeEvent.MessageEvent`; `Type_` is the `int32` enumeration value, the other
three fields are `uint64`. -/
structure Span_TimeEvent_MessageEvent where
  Type_ : Int
  Id : Nat
  UncompressedSize : Nat
  CompressedSize : Nat
deriving DecidableEq, Repr

structure Span_TimeEvent_Annotation_ where
  Annotation : Option Span_TimeEvent_Annotation
deriving DecidableEq, Repr

structure Span_TimeEvent_MessageEvent_ where
  MessageEvent : Option Span_TimeEvent_MessageEvent
deriving DecidableEq, Repr

/-- The `oneof value` interface of `Span.TimeEvent`. -/
inductive isSpan_TimeEvent_Value where
  | unset
  | Annotation_ (p : Option Span_TimeEvent_Annotation_)
  | MessageEvent_ (p : Option Span_TimeEvent_MessageEvent_)
  | other (tag : Nat)
deriving DecidableEq, Repr

structure Span_TimeEvent where
  Time : Option Timestamp
  Value : isSpan_TimeEvent_Value
deriving DecidableEq, Repr

/-- Message `Span.TimeEvents`; both counters are `int32`. -/
structure Span_TimeEvents where
  TimeEvent : List (Option Span_TimeEvent)
  DroppedAnnotationsCount : Int
  DroppedMessageEventsCount : Int
deriving DecidableEq, Repr

/-- Message `Span.Link`; the ids are byte strings. -/
structure Span_Link where
  TraceId : List Nat
  SpanId : List Nat
  Attributes : Option Span_Attributes
  Tracestate : Option Span_Tracestate
deriving DecidableEq, Repr

/-- Message `Span.Links`; the counter is an `int32`. -/
structure Span_Links where
  Link : List (Option Span_Link)
  DroppedLinksCount : Int
deriving DecidableEq, Repr

/-- Message `Status`; `Code` is an `int32`. -/
structure Status where
  Code : Int
  Message : String
deriving DecidableEq, Repr

/-- Message `Span`, over the type `R` of resource descriptors; `ChildSpanCount` is a pointer to a
`uint32` wrapper. -/
structure Span (R : Type) where
  TraceId : List Nat
  SpanId : List Nat
  Tracestate : Option Span_Tracestate
  ParentSpanId : List Nat
  Name : Option TruncatableString
  Kind : Span_SpanKind
  StartTime : Option Timestamp
  EndTime : Option Timestamp
  Attributes : Option Span_Attributes
  TimeEvents : Option Span_TimeEvents
  Links : Option Span_Links
  Status : Option Status
  Resource : Option R
  ChildSpanCount : Option Nat
deriving DecidableEq, Repr

end octrace

namespace consumerdata

/-- The record `consumerdata.TraceData`, over the types of node and resource descriptors. -/
structure TraceData (N R : Type) where
  Node : Option N
  Resource : Option R
  Spans : List (Option (octrace.Span R))

end consumerdata

/-! ## The OTLP (canonical) model: packages `otlpcommon`, `otlptrace` -/

namespace otlpcommon
open tracetranslator

inductive AttributeKeyValue_ValueType where
  | STRING
  | INT
  | DOUBLE
  | BOOL
deriving DecidableEq, Repr

structure AttributeKeyValue where
  Key : String
  Type_ : AttributeKeyValue_ValueType := .STRING
  StringValue : String := ""
  IntValue : Int := 0
  DoubleValue : Float64 := ⟨0⟩
  BoolValue : Bool := false
deriving DecidableEq, Repr

end otlpcommon

namespace otlptrace
open tracetranslator

inductive Span_SpanKind where
  | SPAN_KIND_UNSPECIFIED
  | INTERNAL
  | SERVER
  | CLIENT
  | PRODUCER
  | CONSUMER
deriving DecidableEq, Repr

structure Status where
  Code : Int
  Message : String
deriving DecidableEq, Repr

structure Span_Event where
  TimeUnixNano : Nat
  Name : String := ""
  Attributes : Slice otlpcommon.AttributeKeyValue := .nil
  DroppedAttributesCount : Nat := 0
deriving DecidableEq, Repr

structure Span_Link where
  TraceId : List Nat
  SpanId : List Nat
  TraceState : String
  Attributes : Slice otlpcommon.AttributeKeyValue
  DroppedAttributesCount : Nat
deriving DecidableEq, Repr

structure Span where
  TraceId : List Nat
  SpanId : List Nat
  TraceState : String
  ParentSpanId : List Nat
  Name : String
  Kind : Span_SpanKind
  StartTimeUnixNano : Nat
  EndTimeUnixNano : Nat
  Attributes : Slice otlpcommon.AttributeKeyValue
  DroppedAttributesCount : Nat
  Events : Slice Span_Event
  DroppedEventsCount : Nat
  Links : Slice Span_Link
  DroppedLinksCount : Nat
  Status : Option Status
deriving DecidableEq, Repr

structure InstrumentationLibrarySpans where
  Spans : Slice Span
deriving DecidableEq, Repr

/-- Message `ResourceSpans`, over the type `OR` of resolved resources. -/
structure ResourceSpans (OR : Type) where
  Resource : OR
  InstrumentationLibrarySpans : Slice InstrumentationLibrarySpans := .nil
deriving DecidableEq, Repr

end otlptrace

/-! ## The translation: package `tracetranslator` -/

namespace tracetranslator

/-- Declarations the translated file takes from other packages: the sentinel attribute key,
the attribute keys of a message event (package `conventions`), the generated `String` method of
the message-event type enumeration, and `internal.TimestampToUnixNano`. -/
structure Externals where
  TagSpanKind : String
  OCTimeEventMessageEventType : String
  OCTimeEventMessageEventID : String
  OCTimeEventMessageEventUSize : String
  OCTimeEventMessageEventCSize : String
  MessageEventTypeString : Int → String
  TimestampToUnixNano : Option Timestamp → Int

/-- Modelled from the spec: the constant `OpenTracingSpanKindConsumer`, declared in another file
of the package; the spec gives the recognised token as "consumer". -/
def OpenTracingSpanKindConsumer : String := "consumer"

/-- Modelled from the spec: the constant `OpenTracingSpanKindProducer`, declared in another file
of the package; the spec gives the recognised token as "producer". -/
def OpenTracingSpanKindProducer : String := "producer"

def truncableStringToStr (ts : Option octrace.TruncatableString) : String :=
  match ts with
  | none => ""
  | some ts => ts.Value

def timestampToUnixNano (ext : Externals) (ts : Option Timestamp) : Nat :=
  uint64 (ext.TimestampToUnixNano ts)

def ocStatusToOtlp (ocStatus : Option octrace.Status) : Option otlptrace.Status :=
  match ocStatus with
  | none => none
  | some ocStatus => some { Code := ocStatus.Code, Message := ocStatus.Message }

/-- The loop of `ocTraceStateToOtlp`: `i` is the loop index, `sb` the builder's content.
Reading `entry.Key` dereferences the entry pointer. -/
def ocTraceStateToOtlp_loop :
    List (Option octrace.Span_Tracestate_Entry) → Nat → String → Except Panic String
  | [], _, sb => .ok sb
  | entry :: rest, i, sb =>
    let sb := if i > 0 then sb ++ "," else sb
    match entry with
    | none => .error .nilDereference
    | some entry =>
      ocTraceStateToOtlp_loop rest (i + 1) (sb ++ "=".intercalate [entry.Key, entry.Value])

def ocTraceStateToOtlp (ocTracestate : Option octrace.Span_Tracestate) : Except Panic String :=
  match ocTracestate with
  | none => .ok ""
  | some ocTracestate => ocTraceStateToOtlp_loop ocTracestate.Entries 0 ""

/-- The body of the loop of `ocAttrsToOtlp` for one map entry.  Reading `ocAttr.Value`
dereferences the entry's value pointer, and reading the field of a matched wrapper dereferences
the wrapper pointer. -/
def ocAttrsToOtlp_entry (key : String) (ocAttr : Option octrace.AttributeValue) :
    Except Panic otlpcommon.AttributeKeyValue :=
  match ocAttr with
  | none => .error .nilDereference
  | some ocAttr =>
    match ocAttr.Value with
    | .StringValue none => .error .nilDereference
    | .StringValue (some attribValue) =>
      .ok { Key := key, StringValue := truncableStringToStr attribValue.StringValue,
            Type_ := .STRING }
    | .IntValue none => .error .nilDereference
    | .IntValue (some attribValue) =>
      .ok { Key := key, IntValue := attribValue.IntValue, Type_ := .INT }
    | .BoolValue none => .error .nilDereference
    | .BoolValue (some attribValue) =>
      .ok { Key := key, BoolValue := attribValue.BoolValue, Type_ := .BOOL }
    | .DoubleValue none => .error .nilDereference
    | .DoubleValue (some attribValue) =>
      .ok { Key := key, DoubleValue := attribValue.DoubleValue, Type_ := .DOUBLE }
    | _ =>
      .ok { Key := key, StringValue := "<Unknown OpenCensus Attribute>", Type_ := .STRING }

/-- The loop of `ocAttrsToOtlp` over the map entries; `otlpAttrs` is the list built so far. -/
def ocAttrsToOtlp_loop :
    List (String × Option octrace.AttributeValue) → List otlpcommon.AttributeKeyValue →
      Except Panic (List otlpcommon.AttributeKeyValue)
  | [], otlpAttrs => .ok otlpAttrs
  | (key, ocAttr) :: rest, otlpAttrs =>
    match ocAttrsToOtlp_entry key ocAttr with
    | .error e => .error e
    | .ok otlpAttr => ocAttrsToOtlp_loop rest (otlpAttrs ++ [otlpAttr])

def ocAttrsToOtlp (ocAttrs : Option octrace.Span_Attributes) :
    Except Panic (Slice otlpcommon.AttributeKeyValue × Nat) :=
  match ocAttrs with
  | none => .ok (.nil, 0)
  | some ocAttrs =>
    match ocAttrsToOtlp_loop ocAttrs.AttributeMap [] with
    | .error e => .error e
    | .ok otlpAttrs => .ok (.mk otlpAttrs, uint32 ocAttrs.DroppedAttributesCount)

/-- The result is the kind together with the attribute collection as the call leaves it. -/
def ocSpanKindToOtlp (ext : Externals) (ocKind : octrace.Span_SpanKind)
    (ocAttrs : Option octrace.Span_Attributes) :
    otlptrace.Span_SpanKind × Option octrace.Span_Attributes :=
  match ocKind with
  | .SERVER => (.SERVER, ocAttrs)
  | .CLIENT => (.CLIENT, ocAttrs)
  | .SPAN_KIND_UNSPECIFIED =>
    match ocAttrs with
    | none => (.SPAN_KIND_UNSPECIFIED, ocAttrs)
    | some attrs =>
      match GoMap.get attrs.AttributeMap ext.TagSpanKind with
      | none => (.SPAN_KIND_UNSPECIFIED, ocAttrs)
      | some kindAttr =>
        match kindAttr.Value with
        | .StringValue (some strVal) =>
          if truncableStringToStr strVal.StringValue = OpenTracingSpanKindConsumer then
            (.CONSUMER,
              some { attrs with AttributeMap := GoMap.delete attrs.AttributeMap ext.TagSpanKind })
          else if truncableStringToStr strVal.StringValue = OpenTracingSpanKindProducer then
            (.PRODUCER,
              some { attrs with AttributeMap := GoMap.delete attrs.AttributeMap ext.TagSpanKind })
          else (.SPAN_KIND_UNSPECIFIED, ocAttrs)
        | _ => (.SPAN_KIND_UNSPECIFIED, ocAttrs)
  | .other _ => (.SPAN_KIND_UNSPECIFIED, ocAttrs)

def ocMessageEventToOtlpAttrs (ext : Externals)
    (msgEvent : Option octrace.Span_TimeEvent_MessageEvent) :
    Slice otlpcommon.AttributeKeyValue :=
  match msgEvent with
  | none => .nil
  | some msgEvent =>
    .mk [
      { Key := ext.OCTimeEventMessageEventType,
        StringValue := ext.MessageEventTypeString msgEvent.Type_,
        Type_ := .STRING },
      { Key := ext.OCTimeEventMessageEventID,
        IntValue := int64 msgEvent.Id,
        Type_ := .INT },
      { Key := ext.OCTimeEventMessageEventUSize,
        IntValue := int64 msgEvent.UncompressedSize,
        Type_ := .INT },
      { Key := ext.OCTimeEventMessageEventCSize,
        IntValue := int64 msgEvent.CompressedSize,
        Type_ := .INT } ]

/-- The body of the loop of `ocEventsToOtlp` for one non-nil entry.  Reading the field of a
matched `oneof` wrapper dereferences the wrapper pointer. -/
def ocEventsToOtlp_event (ext : Externals) (ocEvent : octrace.Span_TimeEvent) :
    Except Panic otlptrace.Span_Event :=
  let otlpEvent : otlptrace.Span_Event := { TimeUnixNano := timestampToUnixNano ext ocEvent.Time }
  match ocEvent.Value with
  | .Annotation_ none => .error .nilDereference
  | .Annotation_ (some teValue) =>
    match teValue.Annotation with
    | none => .ok otlpEvent
    | some annotation =>
      match ocAttrsToOtlp annotation.Attributes with
      | .error e => .error e
      | .ok (attrs, droppedCount) =>
        .ok { otlpEvent with
              Name := truncableStringToStr annotation.Description,
              Attributes := attrs,
              DroppedAttributesCount := droppedCount }
  | .MessageEvent_ none => .error .nilDereference
  | .MessageEvent_ (some teValue) =>
    .ok { otlpEvent with Attributes := ocMessageEventToOtlpAttrs ext teValue.MessageEvent }
  | _ =>
    .ok { otlpEvent with
          Name := "An unknown OpenCensus TimeEvent type was detected when translating to OTLP" }

/-- The loop of `ocEventsToOtlp`; `otlpEvents` is the list built so far. -/
def ocEventsToOtlp_loop (ext : Externals) :
    List (Option octrace.Span_TimeEvent) → List otlptrace.Span_Event →
      Except Panic (List otlptrace.Span_Event)
  | [], otlpEvents => .ok otlpEvents
  | none :: rest, otlpEvents => ocEventsToOtlp_loop ext rest otlpEvents
  | some ocEvent :: rest, otlpEvents =>
    match ocEventsToOtlp_event ext ocEvent with
    | .error e => .error e
    | .ok otlpEvent => ocEventsToOtlp_loop ext rest (otlpEvents ++ [otlpEvent])

def ocEventsToOtlp (ext : Externals) (ocEvents : Option octrace.Span_TimeEvents) :
    Except Panic (Slice otlptrace.Span_Event × Nat) :=
  match ocEvents with
  | none => .ok (.nil, 0)
  | some ocEvents =>
    let droppedCount :=
      uint32 (int32 (ocEvents.DroppedMessageEventsCount + ocEvents.DroppedAnnotationsCount))
    if ocEvents.TimeEvent.length = 0 then .ok (.nil, droppedCount)
    else
      match ocEventsToOtlp_loop ext ocEvents.TimeEvent [] with
      | .error e => .error e
      | .ok otlpEvents => .ok (.mk otlpEvents, droppedCount)

/-- The body of the loop of `ocLinksToOtlp` for one non-nil entry. -/
def ocLinksToOtlp_link (ocLink : octrace.Span_Link) : Except Panic otlptrace.Span_Link :=
  match ocAttrsToOtlp ocLink.Attributes with
  | .error e => .error e
  | .ok (attrs, droppedCount) =>
    match ocTraceStateToOtlp ocLink.Tracestate with
    | .error e => .error e
    | .ok traceState =>
      .ok { TraceId := ocLink.TraceId,
            SpanId := ocLink.SpanId,
            TraceState := traceState,
            Attributes := attrs,
            DroppedAttributesCount := droppedCount }

/-- The loop of `ocLinksToOtlp`; `otlpLinks` is the list built so far. -/
def ocLinksToOtlp_loop :
    List (Option octrace.Span_Link) → List otlptrace.Span_Link →
      Except Panic (List otlptrace.Span_Link)
  | [], otlpLinks => .ok otlpLinks
  | none :: rest, otlpLinks => ocLinksToOtlp_loop rest otlpLinks
  | some ocLink :: rest, otlpLinks =>
    match ocLinksToOtlp_link ocLink with
    | .error e => .error e
    | .ok otlpLink => ocLinksToOtlp_loop rest (otlpLinks ++ [otlpLink])

def ocLinksToOtlp (ocLinks : Option octrace.Span_Links) :
    Except Panic (Slice otlptrace.Span_Link × Nat) :=
  match ocLinks with
  | none => .ok (.nil, 0)
  | some ocLinks =>
    let droppedCount := uint32 ocLinks.DroppedLinksCount
    if ocLinks.Link.length = 0 then .ok (.nil, droppedCount)
    else
      match ocLinksToOtlp_loop ocLinks.Link [] with
      | .error e => .error e
      | .ok otlpLinks => .ok (.mk otlpLinks, droppedCount)

/-- The result is the translated span together with the legacy span as the call leaves it (its
attribute collection may have lost the sentinel entry).  The attributes are converted first, the
trace state is encoded before the kind is resolved. -/
def ocSpanToOtlp {R : Type} (ext : Externals) (ocSpan : octrace.Span R) :
    Except Panic (otlptrace.Span × octrace.Span R) :=
  match ocAttrsToOtlp ocSpan.Attributes with
  | .error e => .error e
  | .ok (attrs, droppedAttrCount) =>
    match ocEventsToOtlp ext ocSpan.TimeEvents with
    | .error e => .error e
    | .ok (events, droppedEventCount) =>
      match ocLinksToOtlp ocSpan.Links with
      | .error e => .error e
      | .ok (links, droppedLinkCount) =>
        let childSpanCount : Int :=
          match ocSpan.ChildSpanCount with
          | none => int32 0
          | some v => int32 v
        let _ := childSpanCount
        match ocTraceStateToOtlp ocSpan.Tracestate with
        | .error e => .error e
        | .ok traceState =>
          let kind := ocSpanKindToOtlp ext ocSpan.Kind ocSpan.Attributes
          .ok ({ TraceId := ocSpan.TraceId,
                 SpanId := ocSpan.SpanId,
                 TraceState := traceState,
                 ParentSpanId := ocSpan.ParentSpanId,
                 Name := truncableStringToStr ocSpan.Name,
                 Kind := kind.1,
                 StartTimeUnixNano := timestampToUnixNano ext ocSpan.StartTime,
                 EndTimeUnixNano := timestampToUnixNano ext ocSpan.EndTime,
                 Attributes := attrs,
                 DroppedAttributesCount := droppedAttrCount,
                 Events := events,
                 DroppedEventsCount := droppedEventCount,
                 Links := links,
                 DroppedLinksCount := droppedLinkCount,
                 Status := ocStatusToOtlp ocSpan.Status },
               { ocSpan with Attributes := kind.2 })

/-- The loop of `OCToOTLP` over `td.Spans`: `ilsSpans` is `ils.Spans`, `separate` the groups
appended to `resourceSpanList` after its first element. -/
def OCToOTLP_loop {N R OR : Type} (OCNodeResourceToOtlp : Option N → Option R → OR)
    (ext : Externals) (node : Option N) :
    List (Option (octrace.Span R)) → Slice otlptrace.Span → List (otlptrace.ResourceSpans OR) →
      Except Panic (Slice otlptrace.Span × List (otlptrace.ResourceSpans OR))
  | [], ilsSpans, separate => .ok (ilsSpans, separate)
  | none :: rest, ilsSpans, separate =>
    OCToOTLP_loop OCNodeResourceToOtlp ext node rest ilsSpans separate
  | some ocSpan :: rest, ilsSpans, separate =>
    match ocSpanToOtlp ext ocSpan with
    | .error e => .error e
    | .ok (otlpSpan, _) =>
      match ocSpan.Resource with
      | some r =>
        let separateRS : otlptrace.ResourceSpans OR :=
          { Resource := OCNodeResourceToOtlp node (some r),
            InstrumentationLibrarySpans := .mk [{ Spans := .mk [otlpSpan] }] }
        OCToOTLP_loop OCNodeResourceToOtlp ext node rest ilsSpans (separate ++ [separateRS])
      | none =>
        OCToOTLP_loop OCNodeResourceToOtlp ext node rest (ilsSpans.append otlpSpan) separate

/-- The translation of one record.  `OCNodeResourceToOtlp` is the resource resolver of package
`translatorcommon`.  The first group and its container are pointers the loop writes through, so
the first element of the result carries the span list as the loop leaves it. -/
def OCToOTLP {N R OR : Type} (OCNodeResourceToOtlp : Option N → Option R → OR)
    (ext : Externals) (td : consumerdata.TraceData N R) :
    Except Panic (Slice (otlptrace.ResourceSpans OR)) :=
  if td.Node.isNone ∧ td.Resource.isNone ∧ td.Spans.length = 0 then .ok .nil
  else
    let resource := OCNodeResourceToOtlp td.Node td.Resource
    if td.Spans.length ≠ 0 then
      match OCToOTLP_loop OCNodeResourceToOtlp ext td.Node td.Spans (.mk []) [] with
      | .error e => .error e
      | .ok (ilsSpans, separate) =>
        .ok (.mk ({ Resource := resource,
                    InstrumentationLibrarySpans := .mk [{ Spans := ilsSpans }] } :: separate))
    else .ok (.mk [{ Resource := resource }])

end tracetranslator

/-! ## Inputs on which no nil pointer is dereferenced -/

namespace tracetranslator

/-- A map value `ocAttrsToOtlp` can read: a non-nil pointer whose `oneof` wrapper, when it is one
of the four the switch matches, is non-nil. -/
def attrValueSafe : Option octrace.AttributeValue → Bool
  | none => false
  | some v =>
    match v.Value with
    | .StringValue none => false
    | .IntValue none => false
    | .BoolValue none => false
    | .DoubleValue none => false
    | _ => true

/-- An attribute collection `ocAttrsToOtlp` can read: nil, or every map value is readable. -/
def attrsSafe : Option octrace.Span_Attributes → Bool
  | none => true
  | some a => a.AttributeMap.all (fun kv => attrValueSafe kv.2)

/-- A trace state `ocTraceStateToOtlp` can read: nil, or no entry is nil. -/
def tracestateSafe : Option octrace.Span_Tracestate → Bool
  | none => true
  | some t => t.Entries.all (fun e => e.isSome)

/-- A time event `ocEventsToOtlp` can read. -/
def eventSafe (e : octrace.Span_TimeEvent) : Bool :=
  match e.Value with
  | .Annotation_ none => false
  | .Annotation_ (some w) =>
    match w.Annotation with
    | none => true
    | some a => attrsSafe a.Attributes
  | .MessageEvent_ none => false
  | _ => true

/-- A time-events collection `ocEventsToOtlp` can read: nil, or every non-nil entry is readable. -/
def eventsSafe : Option octrace.Span_TimeEvents → Bool
  | none => true
  | some es =>
    es.TimeEvent.all (fun e =>
      match e with
      | none => true
      | some e => eventSafe e)

/-- A link `ocLinksToOtlp` can read. -/
def linkSafe (l : octrace.Span_Link) : Bool :=
  attrsSafe l.Attributes && tracestateSafe l.Tracestate

/-- A links collection `ocLinksToOtlp` can read: nil, or every non-nil entry is readable. -/
def linksSafe : Option octrace.Span_Links → Bool
  | none => true
  | some ls =>
    ls.Link.all (fun l =>
      match l with
      | none => true
      | some l => linkSafe l)

/-- A span `ocSpanToOtlp` can read. -/
def spanSafe {R : Type} (s : octrace.Span R) : Bool :=
  attrsSafe s.Attributes && eventsSafe s.TimeEvents && linksSafe s.Links &&
    tracestateSafe s.Tracestate

/-- A record `OCToOTLP` can read: every non-nil span is readable. -/
def recordSafe {N R : Type} (td : consumerdata.TraceData N R) : Bool :=
  td.Spans.all (fun s =>
    match s with
    | none => true
    | some s => spanSafe s)

end tracetranslator

/-! ## Vocabulary of the grouping properties -/

namespace tracetranslator

/-- Decidable equality of results, for evaluating the translation on concrete inputs. -/
instance instDecidableEqResult {ε α : Type} [DecidableEq ε] [DecidableEq α] :
    DecidableEq (Except ε α)
  | .ok a, .ok b => if h : a = b then isTrue (by rw [h]) else isFalse (fun e => h (by cases e; rfl))
  | .error a, .error b =>
    if h : a = b then isTrue (by rw [h]) else isFalse (fun e => h (by cases e; rfl))
  | .ok _, .error _ => isFalse (fun e => by cases e)
  | .error _, .ok _ => isFalse (fun e => by cases e)

/-- A fully empty record: no node descriptor, no trace-level resource descriptor, zero spans. -/
def fullyEmpty {N R : Type} (td : consumerdata.TraceData N R) : Prop :=
  td.Node = none ∧ td.Resource = none ∧ td.Spans = []

/-- The non-nil spans of a record, in order. -/
def nonNilSpans {N R : Type} (td : consumerdata.TraceData N R) : List (octrace.Span R) :=
  td.Spans.filterMap id

/-- Legacy span `s` is translated to `t` by `ocSpanToOtlp`. -/
def translatesTo {R : Type} (ext : Externals) (s : octrace.Span R) (t : otlptrace.Span) : Prop :=
  ∃ s', ocSpanToOtlp ext s = .ok (t, s')

/-- All spans a group holds, in order, through its containers. -/
def groupSpans {OR : Type} (g : otlptrace.ResourceSpans OR) : List otlptrace.Span :=
  (g.InstrumentationLibrarySpans.toList.map (fun ils => ils.Spans.toList)).flatten

/-- The singleton group built for a span that carries its own resource. -/
def singletonGroup {N R OR : Type} (OCNodeResourceToOtlp : Option N → Option R → OR)
    (node : Option N) (s : octrace.Span R) (t : otlptrace.Span) : otlptrace.ResourceSpans OR :=
  { Resource := OCNodeResourceToOtlp node s.Resource,
    InstrumentationLibrarySpans := .mk [{ Spans := .mk [t] }] }

/-- The number of non-nil spans that carry a resource of their own which differs from the
trace-level resource. -/
def distinctResourceCount {N R : Type} [DecidableEq R] (td : consumerdata.TraceData N R) : Nat :=
  ((nonNilSpans td).filter
    (fun s => s.Resource.isSome && decide (s.Resource ≠ td.Resource))).length

/-! ## Concrete inputs -/

/-- Sample values for the external declarations. -/
def sampleExternals : Externals :=
  { TagSpanKind := "span.kind"
    OCTimeEventMessageEventType := "type"
    OCTimeEventMessageEventID := "id"
    OCTimeEventMessageEventUSize := "usize"
    OCTimeEventMessageEventCSize := "csize"
    MessageEventTypeString := fun n => if n = 1 then "SENT" else "OTHER"
    TimestampToUnixNano := fun _ => 0 }

/-- A sample resolver: it pairs the two descriptors. -/
def sampleResolver (node : Option Nat) (resource : Option Nat) : Option Nat × Option Nat :=
  (node, resource)

/-- A sample span with the given span id, resource and attributes, all else unset. -/
def sampleSpan (id : Nat) (resource : Option Nat) (attrs : Option octrace.Span_Attributes) :
    octrace.Span Nat :=
  { TraceId := [], SpanId := [id], Tracestate := none, ParentSpanId := [], Name := none,
    Kind := .SPAN_KIND_UNSPECIFIED, StartTime := none, EndTime := none, Attributes := attrs,
    TimeEvents := none, Links := none, Status := none, Resource := resource,
    ChildSpanCount := none }

/-- The translation of `sampleSpan id resource none` under `sampleExternals`. -/
def sampleOtlpSpan (id : Nat) : otlptrace.Span :=
  { TraceId := [], SpanId := [id], TraceState := "", ParentSpanId := [], Name := "",
    Kind := .SPAN_KIND_UNSPECIFIED, StartTimeUnixNano := 0, EndTimeUnixNano := 0,
    Attributes := .nil, DroppedAttributesCount := 0, Events := .nil, DroppedEventsCount := 0,
    Links := .nil, DroppedLinksCount := 0, Status := none }

/-- A record with a node, a trace-level resource and four entries: a plain span, a nil entry, a
span with its own resource, a plain span. -/
def sampleRecord : consumerdata.TraceData Nat Nat :=
  { Node := some 1, Resource := some 7,
    Spans := [some (sampleSpan 10 none none), none, some (sampleSpan 11 (some 8) none),
              some (sampleSpan 12 none none)] }

/-- A record whose only span carries a resource equal to the trace-level resource. -/
def sameResourceRecord : consumerdata.TraceData Nat Nat :=
  { Node := some 1, Resource := some 7, Spans := [some (sampleSpan 10 (some 7) none)] }

/-- A record whose span list holds one nil entry and nothing else. -/
def nilSpanRecord : consumerdata.TraceData Nat Nat :=
  { Node := none, Resource := none, Spans := [none] }

/-- A record whose only span carries its own resource. -/
def overrideOnlyRecord : consumerdata.TraceData Nat Nat :=
  { Node := none, Resource := none, Spans := [some (sampleSpan 10 (some 8) none)] }

/-- The fully empty record. -/
def emptyRecord : consumerdata.TraceData Nat Nat :=
  { Node := none, Resource := none, Spans := [] }

/-- A record with a trace-level resource and no spans. -/
def resourceOnlyRecord : consumerdata.TraceData Nat Nat :=
  { Node := none, Resource := some 7, Spans := [] }

end tracetranslator

/-! ## Vocabulary of the attribute and span-kind properties -/

namespace tracetranslator

/-- The output attribute the variant table assigns to a key and a value: string, integer,
boolean and floating-point values keep their type and value (a nil truncatable string gives the
empty text), an unset or any other variant gives the placeholder string.  A nil wrapper pointer
holds no value and is assigned nothing. -/
def variantAttr (key : String) :
    octrace.isAttributeValue_Value → Option otlpcommon.AttributeKeyValue
  | .StringValue (some w) =>
    some { Key := key, Type_ := .STRING,
           StringValue := match w.StringValue with
             | none => ""
             | some ts => ts.Value }
  | .IntValue (some w) => some { Key := key, Type_ := .INT, IntValue := w.IntValue }
  | .BoolValue (some w) => some { Key := key, Type_ := .BOOL, BoolValue := w.BoolValue }
  | .DoubleValue (some w) => some { Key := key, Type_ := .DOUBLE, DoubleValue := w.DoubleValue }
  | .unset => some { Key := key, Type_ := .STRING, StringValue := "<Unknown OpenCensus Attribute>" }
  | .other _ =>
    some { Key := key, Type_ := .STRING, StringValue := "<Unknown OpenCensus Attribute>" }
  | _ => none

/-- A string-valued attribute value. -/
def stringAttr (s : String) : Option octrace.AttributeValue :=
  some { Value := .StringValue (some { StringValue := some { Value := s, TruncatedByteCount := 0 } }) }

/-- A sample attribute collection with one entry of each variant and a counter of 5. -/
def sampleAttrs : octrace.Span_Attributes :=
  { AttributeMap :=
      [("s", stringAttr "text"),
       ("e", some { Value := .StringValue (some { StringValue := none }) }),
       ("i", some { Value := .IntValue (some { IntValue := -3 }) }),
       ("b", some { Value := .BoolValue (some { BoolValue := true }) }),
       ("d", some { Value := .DoubleValue (some { DoubleValue := { bits := 4607182418800017408 } }) }),
       ("u", some { Value := .unset }),
       ("o", some { Value := .other 9 })],
    DroppedAttributesCount := 5 }

/-- An empty attribute collection whose counter is negative. -/
def negativeCountAttrs : octrace.Span_Attributes :=
  { AttributeMap := [], DroppedAttributesCount := -1 }

/-- A sample collection holding the sentinel key of `sampleExternals` with the given text. -/
def kindAttrs (kind : String) : octrace.Span_Attributes :=
  { AttributeMap := [("a", stringAttr "x"), ("span.kind", stringAttr kind), ("b", stringAttr "y")],
    DroppedAttributesCount := 2 }

end tracetranslator

/-! ## Vocabulary of the trace-state, event and link properties -/

namespace tracetranslator

/-- One trace-state entry rendered as `key=value`, nothing escaped. -/
def renderEntry (e : octrace.Span_Tracestate_Entry) : String :=
  e.Key ++ "=" ++ e.Value

/-- The given strings in order, separated by commas. -/
def joinWithComma : List String → String
  | [] => ""
  | [a] => a
  | a :: b :: rest => a ++ "," ++ joinWithComma (b :: rest)

end tracetranslator

namespace tracetranslator

/-- A time event holding a message event with the given type, id and sizes. -/
def messageTimeEvent (type : Int) (id usize csize : Nat) : Option octrace.Span_TimeEvent :=
  let msgEvent : octrace.Span_TimeEvent_MessageEvent :=
    { Type_ := type, Id := id, UncompressedSize := usize, CompressedSize := csize }
  some { Time := none, Value := .MessageEvent_ (some { MessageEvent := some msgEvent }) }

/-- A time event holding an annotation with the given description and attributes. -/
def annotationTimeEvent (description : String) (attrs : Option octrace.Span_Attributes) :
    Option octrace.Span_TimeEvent :=
  let annotation : octrace.Span_TimeEvent_Annotation :=
    { Description := some { Value := description, TruncatedByteCount := 0 }, Attributes := attrs }
  some { Time := none, Value := .Annotation_ (some { Annotation := some annotation }) }

/-- A sample time-events collection: a message event, a nil entry, an annotation, an entry with
an unset payload; 4 dropped annotations and 2 dropped message events. -/
def sampleEvents : octrace.Span_TimeEvents :=
  { TimeEvent := [messageTimeEvent 1 7 100 40, none, annotationTimeEvent "note" (some sampleAttrs),
                  some { Time := none, Value := .unset }],
    DroppedAnnotationsCount := 4,
    DroppedMessageEventsCount := 2 }

/-- A time-events collection with an empty list, 3 dropped annotations and no dropped message
event. -/
def emptyEvents : octrace.Span_TimeEvents :=
  { TimeEvent := [], DroppedAnnotationsCount := 3, DroppedMessageEventsCount := 0 }

/-- A time-events collection whose only message event has the id `2^63`. -/
def bigIdEvents : octrace.Span_TimeEvents :=
  { TimeEvent := [messageTimeEvent 1 9223372036854775808 100 40],
    DroppedAnnotationsCount := 0,
    DroppedMessageEventsCount := 0 }

end tracetranslator

namespace tracetranslator

/-- A message event whose id and sizes lie in the upper half of the `uint64` range. -/
def bigMessageEvent : octrace.Span_TimeEvent_MessageEvent :=
  { Type_ := 1, Id := 18446744073709551615, UncompressedSize := 9223372036854775808,
    CompressedSize := 9223372036854775813 }

/-- A message event with type 1, id 7 and sizes 100 and 40. -/
def smallMessageEvent : octrace.Span_TimeEvent_MessageEvent :=
  { Type_ := 1, Id := 7, UncompressedSize := 100, CompressedSize := 40 }

end tracetranslator

namespace tracetranslator

/-- A sample link with the given span id, attributes and trace state. -/
def sampleLink (id : Nat) (attrs : Option octrace.Span_Attributes)
    (tracestate : Option octrace.Span_Tracestate) : Option octrace.Span_Link :=
  some { TraceId := [1, 2], SpanId := [id], Attributes := attrs, Tracestate := tracestate }

/-- A sample links collection: a link with attributes, a nil entry, a link with a trace state;
6 dropped links. -/
def sampleLinks : octrace.Span_Links :=
  { Link := [sampleLink 1 (some sampleAttrs) none, none,
             sampleLink 2 none (some { Entries := [some { Key := "a", Value := "1" }] })],
    DroppedLinksCount := 6 }

/-- A links collection with an empty list and a negative counter. -/
def negativeCountLinks : octrace.Span_Links :=
  { Link := [], DroppedLinksCount := -1 }

/-- A record whose only span has an attribute map holding a nil value. -/
def nilAttrValueRecord : consumerdata.TraceData Nat Nat :=
  { Node := some 1, Resource := some 7,
    Spans := [some (sampleSpan 10 none (some { AttributeMap := [("k", none)],
                                               DroppedAttributesCount := 0 }))] }

/-- A record whose only span has a trace state holding a nil entry. -/
def nilTracestateEntryRecord : consumerdata.TraceData Nat Nat :=
  { Node := some 1, Resource := some 7,
    Spans := [some { sampleSpan 10 none none with Tracestate := some { Entries := [none] } }] }

/-- A record whose only span has a link whose attribute map holds a nil value. -/
def nilLinkAttrValueRecord : consumerdata.TraceData Nat Nat :=
  { Node := some 1, Resource := some 7,
    Spans := [some { sampleSpan 10 none none with
      Links := some { Link := [sampleLink 1 (some { AttributeMap := [("k", none)],
                                                    DroppedAttributesCount := 0 }) none],
                      DroppedLinksCount := 0 } }] }

end tracetranslator

namespace tracetranslator

/-- A sample span of kind UNSPECIFIED whose attributes hold the sentinel key with the given
text. -/
def kindSpan (kind : String) : octrace.Span Nat :=
  sampleSpan 10 none (some (kindAttrs kind))

end tracetranslator

/-! ## Properties -/

namespace tracetranslator

theorem ocAttrsToOtlp_entry_ok (key : String) (v : Option octrace.AttributeValue)
    (h : attrValueSafe v = true) :
    ∃ out, ocAttrsToOtlp_entry key v = .ok out := by
  cases v with
  | none => simp [attrValueSafe] at h
  | some v =>
    obtain ⟨val⟩ := v
    cases val with
    | unset => exact ⟨_, rfl⟩
    | other tag => exact ⟨_, rfl⟩
    | StringValue p => cases p with
      | none => simp [attrValueSafe] at h
      | some w => exact ⟨_, rfl⟩
    | IntValue p => cases p with
      | none => simp [attrValueSafe] at h
      | some w => exact ⟨_, rfl⟩
    | BoolValue p => cases p with
      | none => simp [attrValueSafe] at h
      | some w => exact ⟨_, rfl⟩
    | DoubleValue p => cases p with
      | none => simp [attrValueSafe] at h
      | some w => exact ⟨_, rfl⟩

theorem ocAttrsToOtlp_loop_ok (m : List (String × Option octrace.AttributeValue)) :
    ∀ (acc : List otlpcommon.AttributeKeyValue),
      (∀ kv ∈ m, attrValueSafe kv.2 = true) →
      ∃ l, ocAttrsToOtlp_loop m acc = .ok (acc ++ l) ∧
        List.Forall₂ (fun kv out => ocAttrsToOtlp_entry kv.1 kv.2 = .ok out) m l := by
  induction m with
  | nil => intro acc _; exact ⟨[], by simp [ocAttrsToOtlp_loop], List.Forall₂.nil⟩
  | cons kv rest ih =>
    intro acc h
    obtain ⟨key, v⟩ := kv
    obtain ⟨out, hout⟩ := ocAttrsToOtlp_entry_ok key v (h (key, v) (List.mem_cons_self _ _))
    obtain ⟨l, hl, hf⟩ := ih (acc ++ [out]) (fun kv hkv => h kv (List.mem_cons_of_mem _ hkv))
    refine ⟨out :: l, ?_, List.Forall₂.cons hout hf⟩
    simp [ocAttrsToOtlp_loop, hout, hl]

theorem ocAttrsToOtlp_ok (a : Option octrace.Span_Attributes) (h : attrsSafe a = true) :
    ∃ r, ocAttrsToOtlp a = .ok r := by
  cases a with
  | none => exact ⟨_, rfl⟩
  | some a =>
    have h' : ∀ kv ∈ a.AttributeMap, attrValueSafe kv.2 = true := by
      simpa [attrsSafe, List.all_eq_true] using h
    obtain ⟨l, hl, _⟩ := ocAttrsToOtlp_loop_ok a.AttributeMap [] h'
    simp only [ocAttrsToOtlp, hl]
    exact ⟨_, rfl⟩

theorem ocTraceStateToOtlp_loop_ok (es : List (Option octrace.Span_Tracestate_Entry)) :
    ∀ (i : Nat) (sb : String), (∀ e ∈ es, e.isSome = true) →
      ∃ s, ocTraceStateToOtlp_loop es i sb = .ok s := by
  induction es with
  | nil => intro i sb _; exact ⟨sb, rfl⟩
  | cons e rest ih =>
    intro i sb h
    cases e with
    | none => simpa using h none (List.mem_cons_self _ _)
    | some e =>
      simp only [ocTraceStateToOtlp_loop]
      exact ih _ _ (fun e he => h e (List.mem_cons_of_mem _ he))

theorem ocTraceStateToOtlp_ok (t : Option octrace.Span_Tracestate) (h : tracestateSafe t = true) :
    ∃ s, ocTraceStateToOtlp t = .ok s := by
  cases t with
  | none => exact ⟨_, rfl⟩
  | some t =>
    have h' : ∀ e ∈ t.Entries, e.isSome = true := by
      simpa [tracestateSafe, List.all_eq_true] using h
    exact ocTraceStateToOtlp_loop_ok t.Entries 0 "" h'

theorem ocEventsToOtlp_event_ok (ext : Externals) (e : octrace.Span_TimeEvent)
    (h : eventSafe e = true) : ∃ out, ocEventsToOtlp_event ext e = .ok out := by
  obtain ⟨time, val⟩ := e
  cases val with
  | unset => exact ⟨_, rfl⟩
  | other tag => exact ⟨_, rfl⟩
  | MessageEvent_ p => cases p with
    | none => simp [eventSafe] at h
    | some w => exact ⟨_, rfl⟩
  | Annotation_ p => cases p with
    | none => simp [eventSafe] at h
    | some w =>
      obtain ⟨ann⟩ := w
      cases ann with
      | none => exact ⟨_, rfl⟩
      | some ann =>
        have h' : attrsSafe ann.Attributes = true := by simpa [eventSafe] using h
        obtain ⟨r, hr⟩ := ocAttrsToOtlp_ok ann.Attributes h'
        simp only [ocEventsToOtlp_event, hr]
        exact ⟨_, rfl⟩

theorem ocEventsToOtlp_loop_ok (ext : Externals) (es : List (Option octrace.Span_TimeEvent)) :
    ∀ (acc : List otlptrace.Span_Event),
      (∀ e ∈ es, ∀ e', e = some e' → eventSafe e' = true) →
      ∃ l, ocEventsToOtlp_loop ext es acc = .ok (acc ++ l) := by
  induction es with
  | nil => intro acc _; exact ⟨[], by simp [ocEventsToOtlp_loop]⟩
  | cons e rest ih =>
    intro acc h
    have hrest : ∀ e ∈ rest, ∀ e', e = some e' → eventSafe e' = true :=
      fun e he => h e (List.mem_cons_of_mem _ he)
    cases e with
    | none =>
      obtain ⟨l, hl⟩ := ih acc hrest
      exact ⟨l, by simp [ocEventsToOtlp_loop, hl]⟩
    | some e =>
      obtain ⟨out, hout⟩ := ocEventsToOtlp_event_ok ext e (h _ (List.mem_cons_self _ _) e rfl)
      obtain ⟨l, hl⟩ := ih (acc ++ [out]) hrest
      exact ⟨out :: l, by simp [ocEventsToOtlp_loop, hout, hl]⟩

theorem ocEventsToOtlp_ok (ext : Externals) (es : Option octrace.Span_TimeEvents)
    (h : eventsSafe es = true) : ∃ r, ocEventsToOtlp ext es = .ok r := by
  cases es with
  | none => exact ⟨_, rfl⟩
  | some es =>
    have h' : ∀ e ∈ es.TimeEvent, ∀ e', e = some e' → eventSafe e' = true := by
      intro e he e' hee
      have := (List.all_eq_true.mp (by simpa [eventsSafe] using h)) e he
      simpa [hee] using this
    obtain ⟨l, hl⟩ := ocEventsToOtlp_loop_ok ext es.TimeEvent [] h'
    by_cases hlen : es.TimeEvent.length = 0
    · simp only [ocEventsToOtlp, hlen, if_true]
      exact ⟨_, rfl⟩
    · simp only [ocEventsToOtlp, hlen, if_false, hl]
      exact ⟨_, rfl⟩

theorem ocLinksToOtlp_link_ok (l : octrace.Span_Link) (h : linkSafe l = true) :
    ∃ out, ocLinksToOtlp_link l = .ok out := by
  have h1 : attrsSafe l.Attributes = true ∧ tracestateSafe l.Tracestate = true := by
    simpa [linkSafe] using h
  obtain ⟨r, hr⟩ := ocAttrsToOtlp_ok l.Attributes h1.1
  obtain ⟨s, hs⟩ := ocTraceStateToOtlp_ok l.Tracestate h1.2
  simp only [ocLinksToOtlp_link, hr, hs]
  exact ⟨_, rfl⟩

theorem ocLinksToOtlp_loop_ok (ls : List (Option octrace.Span_Link)) :
    ∀ (acc : List otlptrace.Span_Link),
      (∀ l ∈ ls, ∀ l', l = some l' → linkSafe l' = true) →
      ∃ out, ocLinksToOtlp_loop ls acc = .ok (acc ++ out) := by
  induction ls with
  | nil => intro acc _; exact ⟨[], by simp [ocLinksToOtlp_loop]⟩
  | cons l rest ih =>
    intro acc h
    have hrest : ∀ l ∈ rest, ∀ l', l = some l' → linkSafe l' = true :=
      fun l hl => h l (List.mem_cons_of_mem _ hl)
    cases l with
    | none =>
      obtain ⟨out, hout⟩ := ih acc hrest
      exact ⟨out, by simp [ocLinksToOtlp_loop, hout]⟩
    | some l =>
      obtain ⟨o, ho⟩ := ocLinksToOtlp_link_ok l (h _ (List.mem_cons_self _ _) l rfl)
      obtain ⟨out, hout⟩ := ih (acc ++ [o]) hrest
      exact ⟨o :: out, by simp [ocLinksToOtlp_loop, ho, hout]⟩

theorem ocLinksToOtlp_ok (ls : Option octrace.Span_Links) (h : linksSafe ls = true) :
    ∃ r, ocLinksToOtlp ls = .ok r := by
  cases ls with
  | none => exact ⟨_, rfl⟩
  | some ls =>
    have h' : ∀ l ∈ ls.Link, ∀ l', l = some l' → linkSafe l' = true := by
      intro l hl l' hll
      have := (List.all_eq_true.mp (by simpa [linksSafe] using h)) l hl
      simpa [hll] using this
    obtain ⟨out, hout⟩ := ocLinksToOtlp_loop_ok ls.Link [] h'
    by_cases hlen : ls.Link.length = 0
    · simp only [ocLinksToOtlp, hlen, if_true]
      exact ⟨_, rfl⟩
    · simp only [ocLinksToOtlp, hlen, if_false, hout]
      exact ⟨_, rfl⟩

theorem ocSpanToOtlp_ok {R : Type} (ext : Externals) (s : octrace.Span R)
    (h : spanSafe s = true) :
    ∃ t, ocSpanToOtlp ext s =
      .ok (t, { s with Attributes := (ocSpanKindToOtlp ext s.Kind s.Attributes).2 }) := by
  have h1 : ((attrsSafe s.Attributes = true ∧ eventsSafe s.TimeEvents = true) ∧
      linksSafe s.Links = true) ∧ tracestateSafe s.Tracestate = true := by
    simpa [spanSafe] using h
  obtain ⟨a, ha⟩ := ocAttrsToOtlp_ok s.Attributes h1.1.1.1
  obtain ⟨e, he⟩ := ocEventsToOtlp_ok ext s.TimeEvents h1.1.1.2
  obtain ⟨l, hl⟩ := ocLinksToOtlp_ok s.Links h1.1.2
  obtain ⟨ts, hts⟩ := ocTraceStateToOtlp_ok s.Tracestate h1.2
  simp only [ocSpanToOtlp, ha, he, hl, hts]
  exact ⟨_, rfl⟩

end tracetranslator
namespace tracetranslator

theorem OCToOTLP_loop_pairs {N R OR : Type} (resolve : Option N → Option R → OR)
    (ext : Externals) (node : Option N) (spans : List (Option (octrace.Span R))) :
    ∀ (l : List otlptrace.Span) (sep : List (otlptrace.ResourceSpans OR)),
      (∀ s ∈ spans, ∀ s', s = some s' → spanSafe s' = true) →
      ∃ ps : List (octrace.Span R × otlptrace.Span),
        ps.map Prod.fst = spans.filterMap id ∧
        (∀ p ∈ ps, translatesTo ext p.1 p.2) ∧
        OCToOTLP_loop resolve ext node spans (.mk l) sep =
          .ok (.mk (l ++ (ps.filter (fun p => p.1.Resource.isNone)).map Prod.snd),
               sep ++ (ps.filter (fun p => p.1.Resource.isSome)).map
                 (fun p => singletonGroup resolve node p.1 p.2)) := by
  induction spans with
  | nil =>
    intro l sep _
    exact ⟨[], rfl, by simp, by simp [OCToOTLP_loop]⟩
  | cons s rest ih =>
    intro l sep h
    have hrest : ∀ s ∈ rest, ∀ s', s = some s' → spanSafe s' = true :=
      fun s hs => h s (List.mem_cons_of_mem _ hs)
    cases s with
    | none =>
      obtain ⟨ps, h1, h2, h3⟩ := ih l sep hrest
      exact ⟨ps, by simpa using h1, h2, by simpa [OCToOTLP_loop] using h3⟩
    | some s =>
      obtain ⟨t, ht⟩ := ocSpanToOtlp_ok ext s (h _ (List.mem_cons_self _ _) s rfl)
      cases hres : s.Resource with
      | none =>
        obtain ⟨ps, h1, h2, h3⟩ := ih (l ++ [t]) sep hrest
        refine ⟨(s, t) :: ps, by simpa using h1, ?_, ?_⟩
        · intro p hp
          rcases List.mem_cons.mp hp with rfl | hp
          · exact ⟨_, ht⟩
          · exact h2 p hp
        · simp [OCToOTLP_loop, ht, hres, Slice.append, Slice.toList, h3, List.filter_cons]
      | some r =>
        obtain ⟨ps, h1, h2, h3⟩ :=
          ih l (sep ++ [singletonGroup resolve node s t]) hrest
        refine ⟨(s, t) :: ps, by simpa using h1, ?_, ?_⟩
        · intro p hp
          rcases List.mem_cons.mp hp with rfl | hp
          · exact ⟨_, ht⟩
          · exact h2 p hp
        · have hsg : singletonGroup resolve node s t =
              { Resource := resolve node (some r),
                InstrumentationLibrarySpans := .mk [{ Spans := .mk [t] }] } := by
            simp [singletonGroup, hres]
          simp [OCToOTLP_loop, ht, hres, ← hsg, h3, List.filter_cons]

theorem recordSafe_spans {N R : Type} (td : consumerdata.TraceData N R)
    (h : recordSafe td = true) :
    ∀ s ∈ td.Spans, ∀ s', s = some s' → spanSafe s' = true := by
  intro s hs s' hss
  have := (List.all_eq_true.mp (by simpa [recordSafe] using h)) s hs
  simpa [hss] using this

theorem OCToOTLP_fullyEmpty {N R OR : Type} (resolve : Option N → Option R → OR)
    (ext : Externals) (td : consumerdata.TraceData N R) (h : fullyEmpty td) :
    OCToOTLP resolve ext td = .ok .nil := by
  obtain ⟨h1, h2, h3⟩ := h
  simp [OCToOTLP, h1, h2, h3]

theorem OCToOTLP_noSpans {N R OR : Type} (resolve : Option N → Option R → OR)
    (ext : Externals) (td : consumerdata.TraceData N R) (hne : ¬ fullyEmpty td)
    (hs : td.Spans = []) :
    OCToOTLP resolve ext td =
      .ok (.mk [{ Resource := resolve td.Node td.Resource,
                  InstrumentationLibrarySpans := .nil }]) := by
  have hc : ¬ (td.Node.isNone = true ∧ td.Resource.isNone = true ∧ td.Spans.length = 0) := by
    intro hc
    exact hne ⟨Option.isNone_iff_eq_none.mp hc.1, Option.isNone_iff_eq_none.mp hc.2.1, hs⟩
  simp only [OCToOTLP, if_neg hc]
  simp [hs]

theorem OCToOTLP_pairs {N R OR : Type} (resolve : Option N → Option R → OR)
    (ext : Externals) (td : consumerdata.TraceData N R) (hs : td.Spans ≠ [])
    (hsafe : recordSafe td = true) :
    ∃ ps : List (octrace.Span R × otlptrace.Span),
      ps.map Prod.fst = nonNilSpans td ∧
      (∀ p ∈ ps, translatesTo ext p.1 p.2) ∧
      OCToOTLP resolve ext td =
        .ok (.mk ({ Resource := resolve td.Node td.Resource,
                    InstrumentationLibrarySpans :=
                      .mk [{ Spans := .mk ((ps.filter (fun p => p.1.Resource.isNone)).map
                        Prod.snd) }] } ::
                  (ps.filter (fun p => p.1.Resource.isSome)).map
                    (fun p => singletonGroup resolve td.Node p.1 p.2))) := by
  obtain ⟨ps, h1, h2, h3⟩ :=
    OCToOTLP_loop_pairs resolve ext td.Node td.Spans [] [] (recordSafe_spans td hsafe)
  refine ⟨ps, h1, h2, ?_⟩
  have hlen : td.Spans.length ≠ 0 := fun h0 => hs (List.length_eq_zero.mp h0)
  have hc : ¬ (td.Node.isNone = true ∧ td.Resource.isNone = true ∧ td.Spans.length = 0) :=
    fun hc => hlen hc.2.2
  simp only [OCToOTLP, if_neg hc]
  simp [hlen, h3]

end tracetranslator

namespace tracetranslator

theorem filter_resource_length {R α : Type} (ps : List (octrace.Span R × α)) :
    (ps.filter (fun p => p.1.Resource.isNone)).length +
      (ps.filter (fun p => p.1.Resource.isSome)).length = ps.length := by
  induction ps with
  | nil => rfl
  | cons p rest ih =>
    cases h : p.1.Resource <;> simp [List.filter_cons, h] <;> omega

theorem forall2_of_pairs {α β γ : Type} (P : α → γ → Prop) (q : α → Bool) (f : α × β → γ)
    (ps : List (α × β)) (h : ∀ p ∈ ps, P p.1 (f p)) :
    List.Forall₂ P ((ps.map Prod.fst).filter q) ((ps.filter (fun p => q p.1)).map f) := by
  induction ps with
  | nil => exact List.Forall₂.nil
  | cons p rest ih =>
    have ih' := ih (fun p hp => h p (List.mem_cons_of_mem _ hp))
    cases hq : q p.1
    · simp only [List.map_cons, List.filter_cons, hq]
      exact ih'
    · simp only [List.map_cons, List.filter_cons, hq]
      exact List.Forall₂.cons (h p (List.mem_cons_self _ _)) ih'

/-- C1: for every record that is not fully empty (and whose spans `ocSpanToOtlp` can read, so that
the translation returns), with `N` non-nil spans of which `k` carry their own resource, `OCToOTLP`
returns `1 + k` groups: the first carries the resource resolved from the node and the trace-level
resource and holds the `N - k` translated spans without a resource of their own, in their
original order; the others are, in encounter order, the singleton groups of the `k` spans with a
resource of their own, each with the resource resolved from the node and that span's resource
and holding that one translated span.  `ps` pairs every non-nil span with its translation. -/
theorem OCToOTLP_default_then_singletons {N R OR : Type} (resolve : Option N → Option R → OR)
    (ext : Externals) (td : consumerdata.TraceData N R) (hne : ¬ fullyEmpty td)
    (hsafe : recordSafe td = true) :
    ∃ (ps : List (octrace.Span R × otlptrace.Span)) (g0 : otlptrace.ResourceSpans OR),
      ps.map Prod.fst = nonNilSpans td ∧
      (∀ p ∈ ps, translatesTo ext p.1 p.2) ∧
      OCToOTLP resolve ext td =
        .ok (.mk (g0 :: (ps.filter (fun p => p.1.Resource.isSome)).map
          (fun p => singletonGroup resolve td.Node p.1 p.2))) ∧
      g0.Resource = resolve td.Node td.Resource ∧
      groupSpans g0 = (ps.filter (fun p => p.1.Resource.isNone)).map Prod.snd ∧
      (g0 :: (ps.filter (fun p => p.1.Resource.isSome)).map
          (fun p => singletonGroup resolve td.Node p.1 p.2)).length =
        1 + ((nonNilSpans td).filter (fun s => s.Resource.isSome)).length ∧
      (groupSpans g0).length =
        (nonNilSpans td).length - ((nonNilSpans td).filter (fun s => s.Resource.isSome)).length ∧
      ∀ p ∈ ps, groupSpans (singletonGroup resolve td.Node p.1 p.2) = [p.2] := by
  have hcount : ∀ ps : List (octrace.Span R × otlptrace.Span), ps.map Prod.fst = nonNilSpans td →
      (ps.filter (fun p => p.1.Resource.isSome)).length =
        ((nonNilSpans td).filter (fun s => s.Resource.isSome)).length := by
    intro ps h
    rw [← h, List.filter_map, List.length_map]
    rfl
  have hlen : ∀ ps : List (octrace.Span R × otlptrace.Span), ps.map Prod.fst = nonNilSpans td →
      ps.length = (nonNilSpans td).length := by
    intro ps h
    rw [← h, List.length_map]
  by_cases hs : td.Spans = []
  · refine ⟨[], { Resource := resolve td.Node td.Resource }, ?_, ?_, ?_, rfl, rfl, ?_, ?_, ?_⟩
    · simp [nonNilSpans, hs]
    · simp
    · simpa using OCToOTLP_noSpans resolve ext td hne hs
    · simp [nonNilSpans, hs]
    · simp [groupSpans, Slice.toList, nonNilSpans, hs]
    · simp
  · obtain ⟨ps, h1, h2, h3⟩ := OCToOTLP_pairs resolve ext td hs hsafe
    refine ⟨ps, _, h1, h2, h3, rfl, ?_, ?_, ?_, ?_⟩
    · simp [groupSpans, Slice.toList]
    · rw [List.length_cons, List.length_map, hcount ps h1]
      omega
    · have := filter_resource_length ps
      rw [hcount ps h1, hlen ps h1] at this
      simp only [groupSpans, Slice.toList, List.map_cons, List.map_nil, List.flatten_cons,
        List.flatten_nil, List.append_nil, List.length_map]
      omega
    · intro p _
      simp [groupSpans, singletonGroup, Slice.toList]

/-- Witness for C1: the four-entry sample record. -/
theorem OCToOTLP_default_then_singletons_witness :
    ∃ (ps : List (octrace.Span Nat × otlptrace.Span))
      (g0 : otlptrace.ResourceSpans (Option Nat × Option Nat)),
      ps.map Prod.fst = nonNilSpans sampleRecord ∧
      (∀ p ∈ ps, translatesTo sampleExternals p.1 p.2) ∧
      OCToOTLP sampleResolver sampleExternals sampleRecord =
        .ok (.mk (g0 :: (ps.filter (fun p => p.1.Resource.isSome)).map
          (fun p => singletonGroup sampleResolver sampleRecord.Node p.1 p.2))) ∧
      g0.Resource = sampleResolver sampleRecord.Node sampleRecord.Resource ∧
      groupSpans g0 = (ps.filter (fun p => p.1.Resource.isNone)).map Prod.snd ∧
      (g0 :: (ps.filter (fun p => p.1.Resource.isSome)).map
          (fun p => singletonGroup sampleResolver sampleRecord.Node p.1 p.2)).length =
        1 + ((nonNilSpans sampleRecord).filter (fun s => s.Resource.isSome)).length ∧
      (groupSpans g0).length =
        (nonNilSpans sampleRecord).length -
          ((nonNilSpans sampleRecord).filter (fun s => s.Resource.isSome)).length ∧
      ∀ p ∈ ps, groupSpans (singletonGroup sampleResolver sampleRecord.Node p.1 p.2) = [p.2] :=
  OCToOTLP_default_then_singletons sampleResolver sampleExternals sampleRecord
    (by unfold fullyEmpty; decide) (by decide)

end tracetranslator

namespace tracetranslator

/-- C2, as stated, fails: the only span of `sameResourceRecord` carries a resource equal to the
trace-level one, so no span carries a distinct resource and the claim promises one group; the
code returns two, the span alone in the second.  It also fails on the fully empty record, for
which the claim promises one group and the code returns none. -/
theorem OCToOTLP_sameResource_two_groups :
    OCToOTLP sampleResolver sampleExternals sameResourceRecord =
        .ok (.mk [{ Resource := (some 1, some 7),
                    InstrumentationLibrarySpans := .mk [{ Spans := .mk [] }] },
                  { Resource := (some 1, some 7),
                    InstrumentationLibrarySpans := .mk [{ Spans := .mk [sampleOtlpSpan 10] }] }]) ∧
      1 + distinctResourceCount sameResourceRecord = 1 ∧
      OCToOTLP sampleResolver sampleExternals emptyRecord = .ok .nil ∧
      1 + distinctResourceCount emptyRecord = 1 := by
  decide

/-- C2, amended: for every record that is not fully empty (and whose spans `ocSpanToOtlp` can
read), with `N` non-nil spans of which `k` carry a non-nil resource of their own, whether or not
it differs from the trace-level resource, `OCToOTLP` returns `1 + k` groups; the default group
holds the translations of the `N - k` other spans in original order, and the groups after it
correspond one to one, in encounter order, to the `k` spans with their own resource, each
holding that one translated span under the resource resolved for it. -/
theorem OCToOTLP_groups_by_own_resource {N R OR : Type} (resolve : Option N → Option R → OR)
    (ext : Externals) (td : consumerdata.TraceData N R) (hne : ¬ fullyEmpty td)
    (hsafe : recordSafe td = true) :
    ∃ (g0 : otlptrace.ResourceSpans OR) (rest : List (otlptrace.ResourceSpans OR)),
      OCToOTLP resolve ext td = .ok (.mk (g0 :: rest)) ∧
      (g0 :: rest).length = 1 + ((nonNilSpans td).filter (fun s => s.Resource.isSome)).length ∧
      List.Forall₂ (translatesTo ext)
        ((nonNilSpans td).filter (fun s => s.Resource.isNone)) (groupSpans g0) ∧
      List.Forall₂
        (fun s g => g.Resource = resolve td.Node s.Resource ∧
          ∃ t, translatesTo ext s t ∧ g.InstrumentationLibrarySpans = .mk [{ Spans := .mk [t] }])
        ((nonNilSpans td).filter (fun s => s.Resource.isSome)) rest := by
  by_cases hs : td.Spans = []
  · refine ⟨{ Resource := resolve td.Node td.Resource }, [], ?_, ?_, ?_, ?_⟩
    · simpa using OCToOTLP_noSpans resolve ext td hne hs
    · simp [nonNilSpans, hs]
    · simp [nonNilSpans, hs, groupSpans, Slice.toList]
    · simp [nonNilSpans, hs]
  · obtain ⟨ps, h1, h2, h3⟩ := OCToOTLP_pairs resolve ext td hs hsafe
    have hd := forall2_of_pairs (translatesTo ext) (fun s => s.Resource.isNone) Prod.snd ps h2
    have hg := forall2_of_pairs
      (fun (s : octrace.Span R) (g : otlptrace.ResourceSpans OR) =>
        g.Resource = resolve td.Node s.Resource ∧
          ∃ t, translatesTo ext s t ∧ g.InstrumentationLibrarySpans = .mk [{ Spans := .mk [t] }])
      (fun s => s.Resource.isSome) (fun p => singletonGroup resolve td.Node p.1 p.2) ps
      (fun p hp => ⟨rfl, p.2, h2 p hp, rfl⟩)
    rw [h1] at hd hg
    refine ⟨_, _, h3, ?_, ?_, hg⟩
    · rw [List.length_cons, List.length_map, ← h1, List.filter_map, List.length_map]
      simp only [Function.comp_def]
      omega
    · simpa [groupSpans, Slice.toList] using hd

/-- Witness for C2 (amended): the record whose span carries the trace-level resource again. -/
theorem OCToOTLP_groups_by_own_resource_witness :
    ∃ (g0 : otlptrace.ResourceSpans (Option Nat × Option Nat))
      (rest : List (otlptrace.ResourceSpans (Option Nat × Option Nat))),
      OCToOTLP sampleResolver sampleExternals sameResourceRecord = .ok (.mk (g0 :: rest)) ∧
      (g0 :: rest).length =
        1 + ((nonNilSpans sameResourceRecord).filter (fun s => s.Resource.isSome)).length ∧
      List.Forall₂ (translatesTo sampleExternals)
        ((nonNilSpans sameResourceRecord).filter (fun s => s.Resource.isNone)) (groupSpans g0) ∧
      List.Forall₂
        (fun s g => g.Resource = sampleResolver sameResourceRecord.Node s.Resource ∧
          ∃ t, translatesTo sampleExternals s t ∧
            g.InstrumentationLibrarySpans = .mk [{ Spans := .mk [t] }])
        ((nonNilSpans sameResourceRecord).filter (fun s => s.Resource.isSome)) rest :=
  OCToOTLP_groups_by_own_resource sampleResolver sampleExternals sameResourceRecord
    (by unfold fullyEmpty; decide) (by decide)

/-- C3, as stated, fails: the span list of `nilSpanRecord` holds only a nil entry, so nothing is
appended to the default group, yet the group has a container whose span list is the explicit
empty list, not nil. -/
theorem OCToOTLP_nilSpan_explicit_empty :
    OCToOTLP sampleResolver sampleExternals nilSpanRecord =
        .ok (.mk [{ Resource := (none, none),
                    InstrumentationLibrarySpans := .mk [{ Spans := .mk [] }] }]) ∧
      (Slice.mk [({ Spans := .mk [] } : otlptrace.InstrumentationLibrarySpans)]) ≠ Slice.nil ∧
      (Slice.mk [] : Slice otlptrace.Span) ≠ Slice.nil := by
  decide

/-- C3, amended: the default group's span container is created when the record's span list is
non-empty, not on the first append.  For a record that is not fully empty (and whose spans
`ocSpanToOtlp` can read): when the span list is empty the default group has no container (nil);
when the span list is non-empty the default group has exactly one container, whose span list is
non-nil and holds the translated spans without a resource of their own, hence is the explicit
empty list when every span is nil or carries its own resource. -/
theorem OCToOTLP_default_container {N R OR : Type} (resolve : Option N → Option R → OR)
    (ext : Externals) (td : consumerdata.TraceData N R) (hne : ¬ fullyEmpty td)
    (hsafe : recordSafe td = true) :
    ∃ (g0 : otlptrace.ResourceSpans OR) (rest : List (otlptrace.ResourceSpans OR)),
      OCToOTLP resolve ext td = .ok (.mk (g0 :: rest)) ∧
      (td.Spans = [] → g0.InstrumentationLibrarySpans = .nil) ∧
      (td.Spans ≠ [] →
        ∃ l, g0.InstrumentationLibrarySpans = .mk [{ Spans := .mk l }] ∧
          List.Forall₂ (translatesTo ext)
            ((nonNilSpans td).filter (fun s => s.Resource.isNone)) l ∧
          ((∀ s ∈ nonNilSpans td, s.Resource.isSome = true) → l = [])) := by
  by_cases hs : td.Spans = []
  · exact ⟨{ Resource := resolve td.Node td.Resource }, [],
      by simpa using OCToOTLP_noSpans resolve ext td hne hs, fun _ => rfl,
      fun h => absurd hs h⟩
  · obtain ⟨ps, h1, h2, h3⟩ := OCToOTLP_pairs resolve ext td hs hsafe
    have hd := forall2_of_pairs (translatesTo ext) (fun s => s.Resource.isNone) Prod.snd ps h2
    rw [h1] at hd
    refine ⟨_, _, h3, fun h => absurd h hs, fun _ => ⟨_, rfl, hd, ?_⟩⟩
    intro hall
    have hnil : (nonNilSpans td).filter (fun s => s.Resource.isNone) = [] := by
      rw [List.filter_eq_nil_iff]
      intro s hsm
      simp [Option.isSome_iff_ne_none.mp (hall s hsm)]
    rw [hnil] at hd
    exact List.forall₂_nil_left_iff.mp hd

/-- Witness for C3 (amended): the record whose only span carries its own resource. -/
theorem OCToOTLP_default_container_witness :
    ∃ (g0 : otlptrace.ResourceSpans (Option Nat × Option Nat))
      (rest : List (otlptrace.ResourceSpans (Option Nat × Option Nat))),
      OCToOTLP sampleResolver sampleExternals overrideOnlyRecord = .ok (.mk (g0 :: rest)) ∧
      (overrideOnlyRecord.Spans = [] → g0.InstrumentationLibrarySpans = .nil) ∧
      (overrideOnlyRecord.Spans ≠ [] →
        ∃ l, g0.InstrumentationLibrarySpans = .mk [{ Spans := .mk l }] ∧
          List.Forall₂ (translatesTo sampleExternals)
            ((nonNilSpans overrideOnlyRecord).filter (fun s => s.Resource.isNone)) l ∧
          ((∀ s ∈ nonNilSpans overrideOnlyRecord, s.Resource.isSome = true) → l = [])) :=
  OCToOTLP_default_container sampleResolver sampleExternals overrideOnlyRecord
    (by unfold fullyEmpty; decide) (by decide)

end tracetranslator

namespace tracetranslator

/-- C4: `OCToOTLP` returns the nil result exactly for the fully empty record (no node, no
trace-level resource, zero spans); for every other record (whose spans `ocSpanToOtlp` can read,
so that the translation returns) the result is non-empty and its first element is the default
group, carrying the resource resolved from the node and the trace-level resource. -/
theorem OCToOTLP_nil_iff_fullyEmpty {N R OR : Type} (resolve : Option N → Option R → OR)
    (ext : Externals) (td : consumerdata.TraceData N R) (hsafe : recordSafe td = true) :
    ∃ r, OCToOTLP resolve ext td = .ok r ∧
      (r = .nil ↔ fullyEmpty td) ∧
      (r.len = 0 ↔ fullyEmpty td) ∧
      (¬ fullyEmpty td →
        ∃ g0 rest, r = .mk (g0 :: rest) ∧ g0.Resource = resolve td.Node td.Resource) := by
  by_cases he : fullyEmpty td
  · exact ⟨.nil, OCToOTLP_fullyEmpty resolve ext td he, by simp [he], by simp [he, Slice.len,
      Slice.toList], fun h => absurd he h⟩
  · by_cases hs : td.Spans = []
    · exact ⟨_, OCToOTLP_noSpans resolve ext td he hs, by simp [he],
        by simp [he, Slice.len, Slice.toList], fun _ => ⟨_, _, rfl, rfl⟩⟩
    · obtain ⟨ps, _, _, h3⟩ := OCToOTLP_pairs resolve ext td hs hsafe
      exact ⟨_, h3, by simp [he], by simp [he, Slice.len, Slice.toList],
        fun _ => ⟨_, _, rfl, rfl⟩⟩

/-- Witness for C4: the four-entry sample record. -/
theorem OCToOTLP_nil_iff_fullyEmpty_witness :
    ∃ r, OCToOTLP sampleResolver sampleExternals sampleRecord = .ok r ∧
      (r = .nil ↔ fullyEmpty sampleRecord) ∧
      (r.len = 0 ↔ fullyEmpty sampleRecord) ∧
      (¬ fullyEmpty sampleRecord →
        ∃ g0 rest, r = .mk (g0 :: rest) ∧
          g0.Resource = sampleResolver sampleRecord.Node sampleRecord.Resource) :=
  OCToOTLP_nil_iff_fullyEmpty sampleResolver sampleExternals sampleRecord (by decide)

/-- C5: for every record with an empty span list and a trace-level resource or a node
descriptor, `OCToOTLP` returns exactly one group; its resource is the resolver's output for the
node and the trace-level resource, and its span container list is nil, not an explicit empty
list. -/
theorem OCToOTLP_no_spans_one_group {N R OR : Type} (resolve : Option N → Option R → OR)
    (ext : Externals) (td : consumerdata.TraceData N R) (hs : td.Spans = [])
    (hr : td.Resource ≠ none ∨ td.Node ≠ none) :
    ∃ g0, OCToOTLP resolve ext td = .ok (.mk [g0]) ∧
      g0.Resource = resolve td.Node td.Resource ∧
      g0.InstrumentationLibrarySpans = .nil ∧
      g0.InstrumentationLibrarySpans ≠ .mk [] ∧
      groupSpans g0 = [] := by
  have hne : ¬ fullyEmpty td := by
    intro he
    rcases hr with hr | hr
    · exact hr he.2.1
    · exact hr he.1
  exact ⟨_, OCToOTLP_noSpans resolve ext td hne hs, rfl, rfl, by simp, rfl⟩

/-- Witness for C5: a record with a trace-level resource and no spans. -/
theorem OCToOTLP_no_spans_one_group_witness :
    ∃ g0, OCToOTLP sampleResolver sampleExternals resourceOnlyRecord = .ok (.mk [g0]) ∧
      g0.Resource = sampleResolver resourceOnlyRecord.Node resourceOnlyRecord.Resource ∧
      g0.InstrumentationLibrarySpans = .nil ∧
      g0.InstrumentationLibrarySpans ≠ .mk [] ∧
      groupSpans g0 = [] :=
  OCToOTLP_no_spans_one_group sampleResolver sampleExternals resourceOnlyRecord rfl
    (Or.inl (by decide))

end tracetranslator

namespace tracetranslator

theorem ocAttrsToOtlp_entry_variant (key : String) (v : Option octrace.AttributeValue)
    (out : otlpcommon.AttributeKeyValue) (h : ocAttrsToOtlp_entry key v = .ok out) :
    out.Key = key ∧ ∃ a, v = some a ∧ variantAttr key a.Value = some out := by
  cases v with
  | none => simp [ocAttrsToOtlp_entry] at h
  | some a =>
    obtain ⟨val⟩ := a
    cases val with
    | unset =>
      simp only [ocAttrsToOtlp_entry, Except.ok.injEq] at h
      subst h
      exact ⟨rfl, _, rfl, rfl⟩
    | other tag =>
      simp only [ocAttrsToOtlp_entry, Except.ok.injEq] at h
      subst h
      exact ⟨rfl, _, rfl, rfl⟩
    | StringValue p => cases p with
      | none => simp [ocAttrsToOtlp_entry] at h
      | some w =>
        simp only [ocAttrsToOtlp_entry, Except.ok.injEq] at h
        subst h
        refine ⟨rfl, _, rfl, ?_⟩
        cases hw : w.StringValue <;> simp [variantAttr, truncableStringToStr, hw]
    | IntValue p => cases p with
      | none => simp [ocAttrsToOtlp_entry] at h
      | some w =>
        simp only [ocAttrsToOtlp_entry, Except.ok.injEq] at h
        subst h
        exact ⟨rfl, _, rfl, rfl⟩
    | BoolValue p => cases p with
      | none => simp [ocAttrsToOtlp_entry] at h
      | some w =>
        simp only [ocAttrsToOtlp_entry, Except.ok.injEq] at h
        subst h
        exact ⟨rfl, _, rfl, rfl⟩
    | DoubleValue p => cases p with
      | none => simp [ocAttrsToOtlp_entry] at h
      | some w =>
        simp only [ocAttrsToOtlp_entry, Except.ok.injEq] at h
        subst h
        exact ⟨rfl, _, rfl, rfl⟩

theorem ocAttrsToOtlp_some_ok (a : octrace.Span_Attributes) (h : attrsSafe (some a) = true) :
    ∃ l, ocAttrsToOtlp (some a) = .ok (.mk l, uint32 a.DroppedAttributesCount) ∧
      List.Forall₂ (fun kv out => ocAttrsToOtlp_entry kv.1 kv.2 = .ok out) a.AttributeMap l := by
  have h' : ∀ kv ∈ a.AttributeMap, attrValueSafe kv.2 = true := by
    simpa [attrsSafe, List.all_eq_true] using h
  obtain ⟨l, hl, hf⟩ := ocAttrsToOtlp_loop_ok a.AttributeMap [] h'
  exact ⟨l, by simp [ocAttrsToOtlp, hl], hf⟩

theorem forall2_keys (m : List (String × Option octrace.AttributeValue))
    (l : List otlpcommon.AttributeKeyValue)
    (h : List.Forall₂ (fun kv out => ocAttrsToOtlp_entry kv.1 kv.2 = .ok out) m l) :
    l.map (fun out => out.Key) = m.map Prod.fst := by
  induction h with
  | nil => rfl
  | cons hab _ ih =>
    simp only [List.map_cons, ih]
    rw [(ocAttrsToOtlp_entry_variant _ _ _ hab).1]

/-- C6, as stated, fails: the dropped count is not the counter field for every value of the
field; a counter of -1 comes out as 4294967295. -/
theorem ocAttrsToOtlp_negative_counter :
    ocAttrsToOtlp (some negativeCountAttrs) = .ok (.mk [], 4294967295) ∧
      negativeCountAttrs.DroppedAttributesCount = -1 ∧
      ((4294967295 : Nat) : Int) ≠ negativeCountAttrs.DroppedAttributesCount := by
  decide

/-- C6, amended: for every attribute collection (that `ocAttrsToOtlp` can read), the returned
list has one output attribute per map entry, with the same keys in iteration order (so the same
cardinality and key set, no key duplicated or omitted), and the dropped count is the
`DroppedAttributesCount` field converted to `uint32`, that is reduced modulo `2^32`: the field
itself when it is non-negative, the field plus `2^32` when it is negative; it does not depend on
the map.  A nil collection yields the nil list and the dropped count zero. -/
theorem ocAttrsToOtlp_keys_and_counter (a : octrace.Span_Attributes)
    (h : attrsSafe (some a) = true) :
    ∃ l, ocAttrsToOtlp (some a) = .ok (.mk l, uint32 a.DroppedAttributesCount) ∧
      l.length = a.AttributeMap.length ∧
      l.map (fun out => out.Key) = a.AttributeMap.map Prod.fst ∧
      ((a.AttributeMap.map Prod.fst).Nodup → (l.map (fun out => out.Key)).Nodup) ∧
      ((uint32 a.DroppedAttributesCount : Nat) : Int) = a.DroppedAttributesCount % 4294967296 ∧
      (0 ≤ a.DroppedAttributesCount → a.DroppedAttributesCount < 2147483648 →
        ((uint32 a.DroppedAttributesCount : Nat) : Int) = a.DroppedAttributesCount) ∧
      (-2147483648 ≤ a.DroppedAttributesCount → a.DroppedAttributesCount < 0 →
        ((uint32 a.DroppedAttributesCount : Nat) : Int) =
          a.DroppedAttributesCount + 4294967296) ∧
      ocAttrsToOtlp none = .ok (.nil, 0) := by
  obtain ⟨l, hl, hf⟩ := ocAttrsToOtlp_some_ok a h
  have hk := forall2_keys _ _ hf
  have hmod : ((uint32 a.DroppedAttributesCount : Nat) : Int) =
      a.DroppedAttributesCount % 4294967296 := by
    unfold uint32
    exact Int.toNat_of_nonneg (Int.emod_nonneg _ (by decide))
  refine ⟨l, hl, hf.length_eq.symm, hk, fun hn => hk ▸ hn, hmod, ?_, ?_, rfl⟩
  · intro h0 h1
    rw [hmod]
    omega
  · intro h0 h1
    rw [hmod]
    omega

/-- Witness for C6 (amended): the sample collection with one entry of each variant. -/
theorem ocAttrsToOtlp_keys_and_counter_witness :
    ∃ l, ocAttrsToOtlp (some sampleAttrs) = .ok (.mk l, uint32 sampleAttrs.DroppedAttributesCount) ∧
      l.length = sampleAttrs.AttributeMap.length ∧
      l.map (fun out => out.Key) = sampleAttrs.AttributeMap.map Prod.fst ∧
      ((sampleAttrs.AttributeMap.map Prod.fst).Nodup → (l.map (fun out => out.Key)).Nodup) ∧
      ((uint32 sampleAttrs.DroppedAttributesCount : Nat) : Int) =
        sampleAttrs.DroppedAttributesCount % 4294967296 ∧
      (0 ≤ sampleAttrs.DroppedAttributesCount → sampleAttrs.DroppedAttributesCount < 2147483648 →
        ((uint32 sampleAttrs.DroppedAttributesCount : Nat) : Int) =
          sampleAttrs.DroppedAttributesCount) ∧
      (-2147483648 ≤ sampleAttrs.DroppedAttributesCount →
        sampleAttrs.DroppedAttributesCount < 0 →
        ((uint32 sampleAttrs.DroppedAttributesCount : Nat) : Int) =
          sampleAttrs.DroppedAttributesCount + 4294967296) ∧
      ocAttrsToOtlp none = .ok (.nil, 0) :=
  ocAttrsToOtlp_keys_and_counter sampleAttrs (by decide)

/-- C7: for every attribute collection (that `ocAttrsToOtlp` can read), the returned list pairs
off with the map entries, and the attribute emitted for an entry is the one the variant table
assigns to its key and value: string, integer, boolean and floating-point values give an
attribute of type STRING, INT, BOOL, DOUBLE with the same value (empty text for a nil truncatable
string), an unset or any other variant gives one STRING attribute with the placeholder text. -/
theorem ocAttrsToOtlp_by_variant (a : octrace.Span_Attributes) (h : attrsSafe (some a) = true) :
    ∃ l d, ocAttrsToOtlp (some a) = .ok (.mk l, d) ∧
      List.Forall₂
        (fun kv out => ∃ v, kv.2 = some v ∧ variantAttr kv.1 v.Value = some out)
        a.AttributeMap l := by
  obtain ⟨l, hl, hf⟩ := ocAttrsToOtlp_some_ok a h
  exact ⟨l, _, hl, hf.imp (fun kv out hkv => (ocAttrsToOtlp_entry_variant _ _ _ hkv).2)⟩

/-- Witness for C7: the sample collection with one entry of each variant. -/
theorem ocAttrsToOtlp_by_variant_witness :
    ∃ l d, ocAttrsToOtlp (some sampleAttrs) = .ok (.mk l, d) ∧
      List.Forall₂
        (fun kv out => ∃ v, kv.2 = some v ∧ variantAttr kv.1 v.Value = some out)
        sampleAttrs.AttributeMap l :=
  ocAttrsToOtlp_by_variant sampleAttrs (by decide)

end tracetranslator

namespace tracetranslator

theorem GoMap.mem_delete {V : Type} (m : List (String × Option V)) (key : String)
    (kv : String × Option V) : kv ∈ GoMap.delete m key ↔ kv ∈ m ∧ kv.1 ≠ key := by
  simp [GoMap.delete, List.mem_filter]

theorem GoMap.get_of_absent {V : Type} (m : List (String × Option V)) (key : String)
    (h : ∀ kv ∈ m, kv.1 ≠ key) : GoMap.get m key = none := by
  induction m with
  | nil => rfl
  | cons kv rest ih =>
    obtain ⟨k, v⟩ := kv
    have hk : k ≠ key := h (k, v) (List.mem_cons_self _ _)
    simp only [GoMap.get, if_neg hk]
    exact ih (fun kv hkv => h kv (List.mem_cons_of_mem _ hkv))

theorem GoMap.get_delete_self {V : Type} (m : List (String × Option V)) (key : String) :
    GoMap.get (GoMap.delete m key) key = none :=
  GoMap.get_of_absent _ _ (fun kv hkv => ((GoMap.mem_delete m key kv).mp hkv).2)

theorem GoMap.get_delete_ne {V : Type} (m : List (String × Option V)) (key k : String)
    (hk : k ≠ key) : GoMap.get (GoMap.delete m key) k = GoMap.get m k := by
  induction m with
  | nil => rfl
  | cons kv rest ih =>
    obtain ⟨k', v⟩ := kv
    by_cases h1 : k' = key
    · have h2 : k' ≠ k := fun h => hk (h ▸ h1)
      have : GoMap.delete ((k', v) :: rest) key = GoMap.delete rest key := by
        simp [GoMap.delete, List.filter_cons, h1]
      rw [this, ih]
      simp [GoMap.get, h2]
    · have : GoMap.delete ((k', v) :: rest) key = (k', v) :: GoMap.delete rest key := by
        simp [GoMap.delete, List.filter_cons, h1]
      rw [this]
      simp only [GoMap.get, ih]

/-- C8: when the sentinel key of an attribute collection maps to a string value equal to
"producer" (resp. "consumer"), `ocSpanKindToOtlp` called with the legacy kind UNSPECIFIED returns
PRODUCER (resp. CONSUMER), and the collection it leaves behind no longer contains the sentinel
key, while every other entry (and the order of the entries) and the dropped-count field are
unchanged. -/
theorem ocSpanKindToOtlp_sentinel_consumed (ext : Externals) (a : octrace.Span_Attributes)
    (ts : octrace.TruncatableString)
    (hget : GoMap.get a.AttributeMap ext.TagSpanKind =
      some { Value := .StringValue (some { StringValue := some ts }) })
    (hval : ts.Value = "producer" ∨ ts.Value = "consumer") :
    ∃ a', ocSpanKindToOtlp ext .SPAN_KIND_UNSPECIFIED (some a) =
        (if ts.Value = "producer" then .PRODUCER else .CONSUMER, some a') ∧
      (∀ kv ∈ a'.AttributeMap, kv.1 ≠ ext.TagSpanKind) ∧
      GoMap.get a'.AttributeMap ext.TagSpanKind = none ∧
      (∀ kv, kv.1 ≠ ext.TagSpanKind → (kv ∈ a'.AttributeMap ↔ kv ∈ a.AttributeMap)) ∧
      (∀ k, k ≠ ext.TagSpanKind → GoMap.get a'.AttributeMap k = GoMap.get a.AttributeMap k) ∧
      a'.AttributeMap = a.AttributeMap.filter (fun kv => decide (kv.1 ≠ ext.TagSpanKind)) ∧
      a'.DroppedAttributesCount = a.DroppedAttributesCount := by
  refine ⟨{ a with AttributeMap := GoMap.delete a.AttributeMap ext.TagSpanKind }, ?_,
    fun kv hkv => ((GoMap.mem_delete _ _ kv).mp hkv).2, GoMap.get_delete_self _ _,
    fun kv hkv => ?_, fun k hk => GoMap.get_delete_ne _ _ k hk, rfl, rfl⟩
  · rcases hval with hv | hv
    · simp [ocSpanKindToOtlp, hget, truncableStringToStr, hv, OpenTracingSpanKindConsumer,
        OpenTracingSpanKindProducer]
    · simp [ocSpanKindToOtlp, hget, truncableStringToStr, hv, OpenTracingSpanKindConsumer]
  · rw [GoMap.mem_delete]
    exact ⟨fun h => h.1, fun h => ⟨h, hkv⟩⟩

/-- Witness for C8: the sentinel key holds "producer" between two other entries. -/
theorem ocSpanKindToOtlp_sentinel_consumed_witness :
    ∃ a', ocSpanKindToOtlp sampleExternals .SPAN_KIND_UNSPECIFIED (some (kindAttrs "producer")) =
        (if ("producer" : String) = "producer" then .PRODUCER else .CONSUMER, some a') ∧
      (∀ kv ∈ a'.AttributeMap, kv.1 ≠ sampleExternals.TagSpanKind) ∧
      GoMap.get a'.AttributeMap sampleExternals.TagSpanKind = none ∧
      (∀ kv, kv.1 ≠ sampleExternals.TagSpanKind →
        (kv ∈ a'.AttributeMap ↔ kv ∈ (kindAttrs "producer").AttributeMap)) ∧
      (∀ k, k ≠ sampleExternals.TagSpanKind →
        GoMap.get a'.AttributeMap k = GoMap.get (kindAttrs "producer").AttributeMap k) ∧
      a'.AttributeMap = (kindAttrs "producer").AttributeMap.filter
        (fun kv => decide (kv.1 ≠ sampleExternals.TagSpanKind)) ∧
      a'.DroppedAttributesCount = (kindAttrs "producer").DroppedAttributesCount :=
  ocSpanKindToOtlp_sentinel_consumed sampleExternals (kindAttrs "producer")
    { Value := "producer", TruncatedByteCount := 0 } (by decide) (Or.inl rfl)

/-- C9: for the legacy kind UNSPECIFIED, when the attribute collection is nil, or the sentinel
key is absent (or its lookup gives a nil pointer), or its value is not a string variant with a
non-nil wrapper, or its string value is neither "producer" nor "consumer", `ocSpanKindToOtlp`
returns UNSPECIFIED and leaves the attribute collection exactly as it was. -/
theorem ocSpanKindToOtlp_unspecified_untouched (ext : Externals)
    (ocAttrs : Option octrace.Span_Attributes)
    (h : ocAttrs = none ∨ ∃ a, ocAttrs = some a ∧
      ((∀ kv ∈ a.AttributeMap, kv.1 ≠ ext.TagSpanKind) ∨
        GoMap.get a.AttributeMap ext.TagSpanKind = none ∨
        (∃ v, GoMap.get a.AttributeMap ext.TagSpanKind = some v ∧
          ∀ w, v.Value ≠ .StringValue (some w)) ∨
        (∃ w, GoMap.get a.AttributeMap ext.TagSpanKind = some { Value := .StringValue (some w) } ∧
          truncableStringToStr w.StringValue ≠ "producer" ∧
          truncableStringToStr w.StringValue ≠ "consumer"))) :
    ocSpanKindToOtlp ext .SPAN_KIND_UNSPECIFIED ocAttrs = (.SPAN_KIND_UNSPECIFIED, ocAttrs) := by
  rcases h with rfl | ⟨a, rfl, h⟩
  · rfl
  · rcases h with h | h | ⟨v, hv, hns⟩ | ⟨w, hw, hp, hc⟩
    · simp [ocSpanKindToOtlp, GoMap.get_of_absent _ _ h]
    · simp [ocSpanKindToOtlp, h]
    · obtain ⟨val⟩ := v
      cases val with
      | StringValue p =>
        cases p with
        | none => simp [ocSpanKindToOtlp, hv]
        | some w => exact absurd rfl (hns w)
      | unset => simp [ocSpanKindToOtlp, hv]
      | IntValue p => simp [ocSpanKindToOtlp, hv]
      | BoolValue p => simp [ocSpanKindToOtlp, hv]
      | DoubleValue p => simp [ocSpanKindToOtlp, hv]
      | other tag => simp [ocSpanKindToOtlp, hv]
    · simp [ocSpanKindToOtlp, hw, OpenTracingSpanKindConsumer, OpenTracingSpanKindProducer, hp, hc]

/-- Witness for C9: the sentinel key holds the string "server". -/
theorem ocSpanKindToOtlp_unspecified_untouched_witness :
    ocSpanKindToOtlp sampleExternals .SPAN_KIND_UNSPECIFIED (some (kindAttrs "server")) =
      (.SPAN_KIND_UNSPECIFIED, some (kindAttrs "server")) :=
  ocSpanKindToOtlp_unspecified_untouched sampleExternals (some (kindAttrs "server"))
    (Or.inr ⟨kindAttrs "server", rfl, Or.inr (Or.inr (Or.inr
      ⟨{ StringValue := some { Value := "server", TruncatedByteCount := 0 } },
        by decide, by decide, by decide⟩))⟩)

/-- C10: for every attribute collection, `ocSpanKindToOtlp` maps the legacy kind SERVER to SERVER
and CLIENT to CLIENT, maps every legacy kind value other than SERVER, CLIENT and UNSPECIFIED to
UNSPECIFIED, and in all these cases leaves the attribute collection as it was. -/
theorem ocSpanKindToOtlp_server_client_other (ext : Externals)
    (ocAttrs : Option octrace.Span_Attributes) :
    ocSpanKindToOtlp ext .SERVER ocAttrs = (.SERVER, ocAttrs) ∧
      ocSpanKindToOtlp ext .CLIENT ocAttrs = (.CLIENT, ocAttrs) ∧
      ∀ n, ocSpanKindToOtlp ext (.other n) ocAttrs = (.SPAN_KIND_UNSPECIFIED, ocAttrs) :=
  ⟨rfl, rfl, fun _ => rfl⟩

end tracetranslator

namespace tracetranslator

/-! ### The readable inputs are exactly those on which the translation returns -/

theorem ocAttrsToOtlp_entry_error (key : String) (v : Option octrace.AttributeValue)
    (h : attrValueSafe v = false) :
    ocAttrsToOtlp_entry key v = .error .nilDereference := by
  cases v with
  | none => rfl
  | some v =>
    obtain ⟨val⟩ := v
    cases val with
    | unset => simp [attrValueSafe] at h
    | other tag => simp [attrValueSafe] at h
    | StringValue p => cases p with
      | none => rfl
      | some w => simp [attrValueSafe] at h
    | IntValue p => cases p with
      | none => rfl
      | some w => simp [attrValueSafe] at h
    | BoolValue p => cases p with
      | none => rfl
      | some w => simp [attrValueSafe] at h
    | DoubleValue p => cases p with
      | none => rfl
      | some w => simp [attrValueSafe] at h

theorem ocAttrsToOtlp_loop_error (m : List (String × Option octrace.AttributeValue)) :
    ∀ (acc : List otlpcommon.AttributeKeyValue),
      m.all (fun kv => attrValueSafe kv.2) = false →
      ocAttrsToOtlp_loop m acc = .error .nilDereference := by
  induction m with
  | nil => intro acc h; simp at h
  | cons kv rest ih =>
    intro acc h
    obtain ⟨key, v⟩ := kv
    cases hv : attrValueSafe v with
    | false => simp [ocAttrsToOtlp_loop, ocAttrsToOtlp_entry_error key v hv]
    | true =>
      obtain ⟨out, hout⟩ := ocAttrsToOtlp_entry_ok key v hv
      have hrest : rest.all (fun kv => attrValueSafe kv.2) = false := by
        simpa [List.all_cons, hv] using h
      simp [ocAttrsToOtlp_loop, hout, ih _ hrest]

theorem ocAttrsToOtlp_error (a : Option octrace.Span_Attributes) (h : attrsSafe a = false) :
    ocAttrsToOtlp a = .error .nilDereference := by
  cases a with
  | none => simp [attrsSafe] at h
  | some a => simp [ocAttrsToOtlp, ocAttrsToOtlp_loop_error a.AttributeMap [] h]

theorem ocTraceStateToOtlp_loop_error (es : List (Option octrace.Span_Tracestate_Entry)) :
    ∀ (i : Nat) (sb : String), es.all (fun e => e.isSome) = false →
      ocTraceStateToOtlp_loop es i sb = .error .nilDereference := by
  induction es with
  | nil => intro i sb h; simp at h
  | cons e rest ih =>
    intro i sb h
    cases e with
    | none => rfl
    | some e =>
      have hrest : rest.all (fun e => e.isSome) = false := by
        simpa [List.all_cons] using h
      simp only [ocTraceStateToOtlp_loop]
      exact ih _ _ hrest

theorem ocTraceStateToOtlp_error (t : Option octrace.Span_Tracestate)
    (h : tracestateSafe t = false) : ocTraceStateToOtlp t = .error .nilDereference := by
  cases t with
  | none => simp [tracestateSafe] at h
  | some t => exact ocTraceStateToOtlp_loop_error t.Entries 0 "" h

theorem ocEventsToOtlp_event_error (ext : Externals) (e : octrace.Span_TimeEvent)
    (h : eventSafe e = false) : ocEventsToOtlp_event ext e = .error .nilDereference := by
  obtain ⟨time, val⟩ := e
  cases val with
  | unset => simp [eventSafe] at h
  | other tag => simp [eventSafe] at h
  | MessageEvent_ p => cases p with
    | none => rfl
    | some w => simp [eventSafe] at h
  | Annotation_ p => cases p with
    | none => rfl
    | some w =>
      obtain ⟨ann⟩ := w
      cases ann with
      | none => simp [eventSafe] at h
      | some ann =>
        have h' : attrsSafe ann.Attributes = false := by simpa [eventSafe] using h
        simp [ocEventsToOtlp_event, ocAttrsToOtlp_error _ h']

theorem ocEventsToOtlp_loop_error (ext : Externals) (es : List (Option octrace.Span_TimeEvent)) :
    ∀ (acc : List otlptrace.Span_Event),
      es.all (fun e => match e with
        | none => true
        | some e => eventSafe e) = false →
      ocEventsToOtlp_loop ext es acc = .error .nilDereference := by
  induction es with
  | nil => intro acc h; simp at h
  | cons e rest ih =>
    intro acc h
    cases e with
    | none =>
      simp only [ocEventsToOtlp_loop]
      exact ih acc (by simpa [List.all_cons] using h)
    | some e =>
      cases he : eventSafe e with
      | false => simp [ocEventsToOtlp_loop, ocEventsToOtlp_event_error ext e he]
      | true =>
        obtain ⟨out, hout⟩ := ocEventsToOtlp_event_ok ext e he
        simp only [ocEventsToOtlp_loop, hout]
        exact ih _ (by simpa [List.all_cons, he] using h)

theorem ocEventsToOtlp_error (ext : Externals) (es : Option octrace.Span_TimeEvents)
    (h : eventsSafe es = false) : ocEventsToOtlp ext es = .error .nilDereference := by
  cases es with
  | none => simp [eventsSafe] at h
  | some es =>
    have h' : es.TimeEvent.all (fun e => match e with
        | none => true
        | some e => eventSafe e) = false := h
    have hlen : es.TimeEvent.length ≠ 0 := by
      intro h0
      rw [List.length_eq_zero.mp h0] at h'
      simp at h'
    simp [ocEventsToOtlp, hlen, ocEventsToOtlp_loop_error ext es.TimeEvent [] h']

theorem ocLinksToOtlp_link_error (l : octrace.Span_Link) (h : linkSafe l = false) :
    ocLinksToOtlp_link l = .error .nilDereference := by
  cases ha : attrsSafe l.Attributes with
  | false => simp [ocLinksToOtlp_link, ocAttrsToOtlp_error _ ha]
  | true =>
    obtain ⟨r, hr⟩ := ocAttrsToOtlp_ok l.Attributes ha
    have ht : tracestateSafe l.Tracestate = false := by simpa [linkSafe, ha] using h
    simp [ocLinksToOtlp_link, hr, ocTraceStateToOtlp_error _ ht]

theorem ocLinksToOtlp_loop_error (ls : List (Option octrace.Span_Link)) :
    ∀ (acc : List otlptrace.Span_Link),
      ls.all (fun l => match l with
        | none => true
        | some l => linkSafe l) = false →
      ocLinksToOtlp_loop ls acc = .error .nilDereference := by
  induction ls with
  | nil => intro acc h; simp at h
  | cons l rest ih =>
    intro acc h
    cases l with
    | none =>
      simp only [ocLinksToOtlp_loop]
      exact ih acc (by simpa [List.all_cons] using h)
    | some l =>
      cases hl : linkSafe l with
      | false => simp [ocLinksToOtlp_loop, ocLinksToOtlp_link_error l hl]
      | true =>
        obtain ⟨out, hout⟩ := ocLinksToOtlp_link_ok l hl
        simp only [ocLinksToOtlp_loop, hout]
        exact ih _ (by simpa [List.all_cons, hl] using h)

theorem ocLinksToOtlp_error (ls : Option octrace.Span_Links) (h : linksSafe ls = false) :
    ocLinksToOtlp ls = .error .nilDereference := by
  cases ls with
  | none => simp [linksSafe] at h
  | some ls =>
    have h' : ls.Link.all (fun l => match l with
        | none => true
        | some l => linkSafe l) = false := h
    have hlen : ls.Link.length ≠ 0 := by
      intro h0
      rw [List.length_eq_zero.mp h0] at h'
      simp at h'
    simp [ocLinksToOtlp, hlen, ocLinksToOtlp_loop_error ls.Link [] h']

theorem ocSpanToOtlp_error {R : Type} (ext : Externals) (s : octrace.Span R)
    (h : spanSafe s = false) : ocSpanToOtlp ext s = .error .nilDereference := by
  cases ha : attrsSafe s.Attributes with
  | false => simp [ocSpanToOtlp, ocAttrsToOtlp_error _ ha]
  | true =>
    obtain ⟨a, ha'⟩ := ocAttrsToOtlp_ok s.Attributes ha
    cases he : eventsSafe s.TimeEvents with
    | false => simp [ocSpanToOtlp, ha', ocEventsToOtlp_error ext _ he]
    | true =>
      obtain ⟨e, he'⟩ := ocEventsToOtlp_ok ext s.TimeEvents he
      cases hl : linksSafe s.Links with
      | false => simp [ocSpanToOtlp, ha', he', ocLinksToOtlp_error _ hl]
      | true =>
        obtain ⟨l, hl'⟩ := ocLinksToOtlp_ok s.Links hl
        have ht : tracestateSafe s.Tracestate = false := by
          simpa [spanSafe, ha, he, hl] using h
        simp [ocSpanToOtlp, ha', he', hl', ocTraceStateToOtlp_error _ ht]

theorem OCToOTLP_loop_error {N R OR : Type} (resolve : Option N → Option R → OR)
    (ext : Externals) (node : Option N) (spans : List (Option (octrace.Span R))) :
    ∀ (ils : Slice otlptrace.Span) (sep : List (otlptrace.ResourceSpans OR)),
      spans.all (fun s => match s with
        | none => true
        | some s => spanSafe s) = false →
      OCToOTLP_loop resolve ext node spans ils sep = .error .nilDereference := by
  induction spans with
  | nil => intro ils sep h; simp at h
  | cons s rest ih =>
    intro ils sep h
    cases s with
    | none =>
      simp only [OCToOTLP_loop]
      exact ih ils sep (by simpa [List.all_cons] using h)
    | some s =>
      cases hs : spanSafe s with
      | false => simp [OCToOTLP_loop, ocSpanToOtlp_error ext s hs]
      | true =>
        obtain ⟨t, ht⟩ := ocSpanToOtlp_ok ext s hs
        have hrest : rest.all (fun s => match s with
            | none => true
            | some s => spanSafe s) = false := by
          simpa [List.all_cons, hs] using h
        simp only [OCToOTLP_loop, ht]
        cases s.Resource with
        | none => exact ih _ _ hrest
        | some r => exact ih _ _ hrest

theorem OCToOTLP_error {N R OR : Type} (resolve : Option N → Option R → OR)
    (ext : Externals) (td : consumerdata.TraceData N R) (h : recordSafe td = false) :
    OCToOTLP resolve ext td = .error .nilDereference := by
  have h' : td.Spans.all (fun s => match s with
      | none => true
      | some s => spanSafe s) = false := h
  have hlen : td.Spans.length ≠ 0 := by
    intro h0
    rw [List.length_eq_zero.mp h0] at h'
    simp at h'
  have hc : ¬ (td.Node.isNone = true ∧ td.Resource.isNone = true ∧ td.Spans.length = 0) :=
    fun hc => hlen hc.2.2
  simp only [OCToOTLP, if_neg hc]
  simp [hlen, OCToOTLP_loop_error resolve ext td.Node td.Spans _ _ h']

end tracetranslator

namespace tracetranslator

theorem foldl_comma_append (l : List String) :
    ∀ (x y : String),
      l.foldl (fun acc s => acc ++ "," ++ s) (x ++ y) = x ++ l.foldl (fun acc s => acc ++ "," ++ s) y := by
  induction l with
  | nil => intro x y; rfl
  | cons a rest ih =>
    intro x y
    simp only [List.foldl_cons]
    rw [String.append_assoc x y ",", String.append_assoc x (y ++ ",") a, ih]

theorem joinWithComma_cons (l : List String) :
    ∀ (a : String), joinWithComma (a :: l) = l.foldl (fun acc s => acc ++ "," ++ s) a := by
  induction l with
  | nil => intro a; rfl
  | cons b rest ih =>
    intro a
    simp only [joinWithComma, List.foldl_cons]
    rw [ih b, String.append_assoc a "," b, foldl_comma_append, foldl_comma_append rest "," b,
      String.append_assoc]

theorem joinWithComma_append (l1 : List String) :
    ∀ (l2 : List String), l1 ≠ [] → l2 ≠ [] →
      joinWithComma (l1 ++ l2) = joinWithComma l1 ++ "," ++ joinWithComma l2 := by
  induction l1 with
  | nil => intro l2 h; exact absurd rfl h
  | cons a rest ih =>
    intro l2 _ h2
    cases rest with
    | nil =>
      cases l2 with
      | nil => exact absurd rfl h2
      | cons b l2 => rfl
    | cons b rest =>
      have := ih l2 (by simp) h2
      simp only [List.cons_append] at this ⊢
      simp only [joinWithComma, this, String.append_assoc]

theorem ocTraceStateToOtlp_loop_pos (es : List octrace.Span_Tracestate_Entry) :
    ∀ (i : Nat) (sb : String), 0 < i →
      ocTraceStateToOtlp_loop (es.map some) i sb =
        .ok ((es.map renderEntry).foldl (fun acc s => acc ++ "," ++ s) sb) := by
  induction es with
  | nil => intro i sb _; rfl
  | cons e rest ih =>
    intro i sb hi
    simp only [List.map_cons, ocTraceStateToOtlp_loop, hi, if_true, List.foldl_cons]
    rw [ih (i + 1) _ (Nat.succ_pos i)]
    simp [renderEntry, String.intercalate, String.intercalate.go, String.append_assoc]

theorem ocTraceStateToOtlp_entries (es : List octrace.Span_Tracestate_Entry) :
    ocTraceStateToOtlp (some { Entries := es.map some }) =
      .ok (joinWithComma (es.map renderEntry)) := by
  cases es with
  | nil => rfl
  | cons e rest =>
    simp only [ocTraceStateToOtlp, List.map_cons, ocTraceStateToOtlp_loop, Nat.lt_irrefl,
      if_false]
    rw [ocTraceStateToOtlp_loop_pos rest 1 _ Nat.one_pos, joinWithComma_cons]
    simp [renderEntry, String.intercalate, String.intercalate.go]

/-- C11: for every list of trace-state entries, `ocTraceStateToOtlp` returns the entries rendered
as `key=value` and joined with commas in the input order, nothing escaped and nothing
de-duplicated; so the two entries (a,1), (b,2) give `a=1,b=2`, and the result for the
concatenation of two non-empty lists is the two results with a comma between them.  A nil trace
state and a trace state with no entries both give the empty string. -/
theorem ocTraceStateToOtlp_joined (es : List octrace.Span_Tracestate_Entry) :
    ocTraceStateToOtlp (some { Entries := es.map some }) =
        .ok (joinWithComma (es.map renderEntry)) ∧
      ocTraceStateToOtlp none = .ok "" ∧
      ocTraceStateToOtlp (some { Entries := [] }) = .ok "" ∧
      ocTraceStateToOtlp (some { Entries := [some { Key := "a", Value := "1" },
        some { Key := "b", Value := "2" }] }) = .ok "a=1,b=2" ∧
      ocTraceStateToOtlp (some { Entries := [some { Key := "a", Value := "=" },
        some { Key := "a", Value := "," }] }) = .ok "a==,a=," ∧
      ∀ xs ys : List octrace.Span_Tracestate_Entry, xs ≠ [] → ys ≠ [] →
        ∃ sx sy, ocTraceStateToOtlp (some { Entries := xs.map some }) = .ok sx ∧
          ocTraceStateToOtlp (some { Entries := ys.map some }) = .ok sy ∧
          ocTraceStateToOtlp (some { Entries := (xs ++ ys).map some }) =
            .ok (sx ++ "," ++ sy) := by
  refine ⟨ocTraceStateToOtlp_entries es, rfl, rfl, by decide, by decide, ?_⟩
  intro xs ys hx hy
  refine ⟨_, _, ocTraceStateToOtlp_entries xs, ocTraceStateToOtlp_entries ys, ?_⟩
  rw [ocTraceStateToOtlp_entries, List.map_append,
    joinWithComma_append _ _ (by simpa using hx) (by simpa using hy)]

/-- Witness for C11: a one-entry list followed by a two-entry list, with a repeated key. -/
theorem ocTraceStateToOtlp_joined_witness :
    ∃ sx sy,
      ocTraceStateToOtlp (some { Entries :=
          ([{ Key := "k", Value := "1" }] : List octrace.Span_Tracestate_Entry).map some }) =
        .ok sx ∧
      ocTraceStateToOtlp (some { Entries :=
          ([{ Key := "k", Value := "2" }, { Key := "m", Value := "3" }] :
            List octrace.Span_Tracestate_Entry).map some }) = .ok sy ∧
      ocTraceStateToOtlp (some { Entries :=
          (([{ Key := "k", Value := "1" }] : List octrace.Span_Tracestate_Entry) ++
            ([{ Key := "k", Value := "2" }, { Key := "m", Value := "3" }] :
              List octrace.Span_Tracestate_Entry)).map some }) =
        .ok (sx ++ "," ++ sy) :=
  (ocTraceStateToOtlp_joined []).2.2.2.2.2 [{ Key := "k", Value := "1" }]
    [{ Key := "k", Value := "2" }, { Key := "m", Value := "3" }]
    (List.cons_ne_nil _ _) (List.cons_ne_nil _ _)

end tracetranslator

namespace tracetranslator

theorem ocEventsToOtlp_loop_forall2 (ext : Externals)
    (es : List (Option octrace.Span_TimeEvent)) :
    ∀ (acc : List otlptrace.Span_Event),
      (∀ e ∈ es, ∀ e', e = some e' → eventSafe e' = true) →
      ∃ l, ocEventsToOtlp_loop ext es acc = .ok (acc ++ l) ∧
        List.Forall₂ (fun e out => ocEventsToOtlp_event ext e = .ok out) (es.filterMap id) l := by
  induction es with
  | nil => intro acc _; exact ⟨[], by simp [ocEventsToOtlp_loop], List.Forall₂.nil⟩
  | cons e rest ih =>
    intro acc h
    have hrest : ∀ e ∈ rest, ∀ e', e = some e' → eventSafe e' = true :=
      fun e he => h e (List.mem_cons_of_mem _ he)
    cases e with
    | none =>
      obtain ⟨l, hl, hf⟩ := ih acc hrest
      exact ⟨l, by simp [ocEventsToOtlp_loop, hl], by simpa using hf⟩
    | some e =>
      obtain ⟨out, hout⟩ := ocEventsToOtlp_event_ok ext e (h _ (List.mem_cons_self _ _) e rfl)
      obtain ⟨l, hl, hf⟩ := ih (acc ++ [out]) hrest
      exact ⟨out :: l, by simp [ocEventsToOtlp_loop, hout, hl], List.Forall₂.cons hout hf⟩

theorem ocEventsToOtlp_some_ok (ext : Externals) (es : octrace.Span_TimeEvents)
    (h : eventsSafe (some es) = true) :
    ∃ r, ocEventsToOtlp ext (some es) =
        .ok (r, uint32 (int32 (es.DroppedMessageEventsCount + es.DroppedAnnotationsCount))) ∧
      (es.TimeEvent = [] → r = .nil) ∧
      (es.TimeEvent ≠ [] → r = .mk r.toList) ∧
      List.Forall₂ (fun e out => ocEventsToOtlp_event ext e = .ok out)
        (es.TimeEvent.filterMap id) r.toList := by
  have h' : ∀ e ∈ es.TimeEvent, ∀ e', e = some e' → eventSafe e' = true := by
    intro e he e' hee
    have := (List.all_eq_true.mp (by simpa [eventsSafe] using h)) e he
    simpa [hee] using this
  obtain ⟨l, hl, hf⟩ := ocEventsToOtlp_loop_forall2 ext es.TimeEvent [] h'
  by_cases hlen : es.TimeEvent.length = 0
  · have hnil : es.TimeEvent = [] := List.length_eq_zero.mp hlen
    refine ⟨.nil, by simp [ocEventsToOtlp, hlen], fun _ => rfl, fun hne => absurd hnil hne, ?_⟩
    simp [hnil, Slice.toList]
  · refine ⟨.mk l, by simp [ocEventsToOtlp, hlen, hl], ?_, fun _ => rfl, hf⟩
    intro hnil
    exact absurd (by simp [hnil]) hlen

theorem uint32_int32_sum (a b : Int) (ha : 0 ≤ a) (ha' : a < 2147483648) (hb : 0 ≤ b)
    (hb' : b < 2147483648) : ((uint32 (int32 (a + b)) : Nat) : Int) = a + b := by
  unfold uint32 int32
  rw [Int.toNat_of_nonneg (Int.emod_nonneg _ (by decide))]
  omega

/-- C12: for every non-nil time-events collection (that `ocEventsToOtlp` can read) whose two
sub-counters are non-negative 32-bit values, the dropped count returned is their exact sum
`DroppedMessageEventsCount + DroppedAnnotationsCount`, whatever the detailed event list holds;
when that list is empty the returned event list is nil (0 message-event drops, 3 annotation
drops and an empty list give (nil, 3)); a nil collection gives (nil, 0). -/
theorem ocEventsToOtlp_dropped_sum (ext : Externals) (es : octrace.Span_TimeEvents)
    (hsafe : eventsSafe (some es) = true)
    (hm : 0 ≤ es.DroppedMessageEventsCount) (hm' : es.DroppedMessageEventsCount < 2147483648)
    (ha : 0 ≤ es.DroppedAnnotationsCount) (ha' : es.DroppedAnnotationsCount < 2147483648) :
    ∃ r d, ocEventsToOtlp ext (some es) = .ok (r, d) ∧
      ((d : Nat) : Int) = es.DroppedMessageEventsCount + es.DroppedAnnotationsCount ∧
      (es.TimeEvent = [] → r = .nil) ∧
      ocEventsToOtlp ext (some emptyEvents) = .ok (.nil, 3) ∧
      ocEventsToOtlp ext none = .ok (.nil, 0) := by
  obtain ⟨r, hr, hnil, _, _⟩ := ocEventsToOtlp_some_ok ext es hsafe
  exact ⟨r, _, hr, uint32_int32_sum _ _ hm hm' ha ha', hnil, rfl, rfl⟩

/-- Witness for C12: the sample collection, 2 message-event drops and 4 annotation drops. -/
theorem ocEventsToOtlp_dropped_sum_witness :
    ∃ r d, ocEventsToOtlp sampleExternals (some sampleEvents) = .ok (r, d) ∧
      ((d : Nat) : Int) =
        sampleEvents.DroppedMessageEventsCount + sampleEvents.DroppedAnnotationsCount ∧
      (sampleEvents.TimeEvent = [] → r = .nil) ∧
      ocEventsToOtlp sampleExternals (some emptyEvents) = .ok (.nil, 3) ∧
      ocEventsToOtlp sampleExternals none = .ok (.nil, 0) :=
  ocEventsToOtlp_dropped_sum sampleExternals sampleEvents (by decide) (by decide) (by decide)
    (by decide) (by decide)

end tracetranslator

namespace tracetranslator

theorem ocEventsToOtlp_event_time (ext : Externals) (e : octrace.Span_TimeEvent)
    (out : otlptrace.Span_Event) (h : ocEventsToOtlp_event ext e = .ok out) :
    out.TimeUnixNano = timestampToUnixNano ext e.Time := by
  obtain ⟨time, val⟩ := e
  cases val with
  | unset =>
    simp only [ocEventsToOtlp_event, Except.ok.injEq] at h
    subst h; rfl
  | other tag =>
    simp only [ocEventsToOtlp_event, Except.ok.injEq] at h
    subst h; rfl
  | MessageEvent_ p => cases p with
    | none => simp [ocEventsToOtlp_event] at h
    | some w =>
      simp only [ocEventsToOtlp_event, Except.ok.injEq] at h
      subst h; rfl
  | Annotation_ p => cases p with
    | none => simp [ocEventsToOtlp_event] at h
    | some w =>
      obtain ⟨ann⟩ := w
      cases ann with
      | none =>
        simp only [ocEventsToOtlp_event, Except.ok.injEq] at h
        subst h; rfl
      | some ann =>
        cases ha : ocAttrsToOtlp ann.Attributes with
        | error err => simp [ocEventsToOtlp_event, ha] at h
        | ok r =>
          simp only [ocEventsToOtlp_event, ha, Except.ok.injEq] at h
          subst h; rfl

theorem ocEventsToOtlp_event_annotation (ext : Externals) (e : octrace.Span_TimeEvent)
    (out : otlptrace.Span_Event) (ann : octrace.Span_TimeEvent_Annotation)
    (h : ocEventsToOtlp_event ext e = .ok out)
    (hv : e.Value = .Annotation_ (some { Annotation := some ann })) :
    out.Name = truncableStringToStr ann.Description ∧
      ocAttrsToOtlp ann.Attributes = .ok (out.Attributes, out.DroppedAttributesCount) := by
  obtain ⟨time, val⟩ := e
  simp only at hv
  subst hv
  cases ha : ocAttrsToOtlp ann.Attributes with
  | error err => simp [ocEventsToOtlp_event, ha] at h
  | ok r =>
    simp only [ocEventsToOtlp_event, ha, Except.ok.injEq] at h
    subst h
    exact ⟨rfl, rfl⟩

theorem int64_of_lt (n : Nat) (h : n < 9223372036854775808) : int64 n = n := by
  unfold int64
  omega

theorem int64_of_ge (n : Nat) (h : 9223372036854775808 ≤ n) (h' : n < 18446744073709551616) :
    int64 n = (n : Int) - 18446744073709551616 := by
  unfold int64
  omega

/-- C13, as stated, fails: a message event with the id `2^63` yields the integer attribute
`-2^63`, not the id. -/
theorem ocEventsToOtlp_big_message_id :
    ocEventsToOtlp sampleExternals (some bigIdEvents) =
      .ok (.mk [{ TimeUnixNano := 0, Name := "",
                  Attributes := .mk [
                    { Key := "type", StringValue := "SENT", Type_ := .STRING },
                    { Key := "id", IntValue := -9223372036854775808, Type_ := .INT },
                    { Key := "usize", IntValue := 100, Type_ := .INT },
                    { Key := "csize", IntValue := 40, Type_ := .INT }],
                  DroppedAttributesCount := 0 }], 0) ∧
      (-9223372036854775808 : Int) ≠ ((9223372036854775808 : Nat) : Int) := by
  decide

/-- C13, amended: for every message-event payload whose message event is present, with type X,
id i, uncompressed size u and compressed size c, the event emitted by `ocEventsToOtlp` (on a
collection it can read) has an empty name and exactly four attributes in this order: the
message-event type (STRING, the textual form of X), the message id, the uncompressed size and the
compressed size (INT, the `int64` conversion of i, u, c, which is the value itself whenever it is
below `2^63`); so id 7 and sizes 100 and 40 give the INT values 7, 100, 40. -/
theorem ocEventsToOtlp_message_event (ext : Externals) (es : octrace.Span_TimeEvents)
    (hsafe : eventsSafe (some es) = true) :
    ∃ r d, ocEventsToOtlp ext (some es) = .ok (r, d) ∧
      List.Forall₂
        (fun e out => ∀ m, e.Value = .MessageEvent_ (some { MessageEvent := some m }) →
          out.Name = "" ∧
          out.Attributes = .mk [
            { Key := ext.OCTimeEventMessageEventType,
              StringValue := ext.MessageEventTypeString m.Type_, Type_ := .STRING },
            { Key := ext.OCTimeEventMessageEventID, IntValue := int64 m.Id, Type_ := .INT },
            { Key := ext.OCTimeEventMessageEventUSize, IntValue := int64 m.UncompressedSize,
              Type_ := .INT },
            { Key := ext.OCTimeEventMessageEventCSize, IntValue := int64 m.CompressedSize,
              Type_ := .INT }] ∧
          (m.Id < 9223372036854775808 → int64 m.Id = m.Id) ∧
          (m.UncompressedSize < 9223372036854775808 →
            int64 m.UncompressedSize = m.UncompressedSize) ∧
          (m.CompressedSize < 9223372036854775808 → int64 m.CompressedSize = m.CompressedSize))
        (es.TimeEvent.filterMap id) r.toList ∧
      (int64 7 = 7 ∧ int64 100 = 100 ∧ int64 40 = 40) := by
  obtain ⟨r, hr, _, _, hf⟩ := ocEventsToOtlp_some_ok ext es hsafe
  refine ⟨r, _, hr, hf.imp ?_, by decide⟩
  intro e out he m hv
  obtain ⟨time, val⟩ := e
  simp only at hv
  subst hv
  simp only [ocEventsToOtlp_event, Except.ok.injEq] at he
  subst he
  exact ⟨rfl, rfl, int64_of_lt _, int64_of_lt _, int64_of_lt _⟩

/-- Witness for C13 (amended): the sample collection, whose message event has id 7 and sizes 100
and 40. -/
theorem ocEventsToOtlp_message_event_witness :
    ∃ r d, ocEventsToOtlp sampleExternals (some sampleEvents) = .ok (r, d) ∧
      List.Forall₂
        (fun e out => ∀ m, e.Value = .MessageEvent_ (some { MessageEvent := some m }) →
          out.Name = "" ∧
          out.Attributes = .mk [
            { Key := sampleExternals.OCTimeEventMessageEventType,
              StringValue := sampleExternals.MessageEventTypeString m.Type_, Type_ := .STRING },
            { Key := sampleExternals.OCTimeEventMessageEventID, IntValue := int64 m.Id,
              Type_ := .INT },
            { Key := sampleExternals.OCTimeEventMessageEventUSize,
              IntValue := int64 m.UncompressedSize, Type_ := .INT },
            { Key := sampleExternals.OCTimeEventMessageEventCSize,
              IntValue := int64 m.CompressedSize, Type_ := .INT }] ∧
          (m.Id < 9223372036854775808 → int64 m.Id = m.Id) ∧
          (m.UncompressedSize < 9223372036854775808 →
            int64 m.UncompressedSize = m.UncompressedSize) ∧
          (m.CompressedSize < 9223372036854775808 → int64 m.CompressedSize = m.CompressedSize))
        (sampleEvents.TimeEvent.filterMap id) r.toList ∧
      (int64 7 = 7 ∧ int64 100 = 100 ∧ int64 40 = 40) :=
  ocEventsToOtlp_message_event sampleExternals sampleEvents (by decide)

/-- C17, as stated, fails: ids and sizes in the upper half of the `uint64` range come out as
negative integers. -/
theorem ocMessageEventToOtlpAttrs_big_values :
    ocMessageEventToOtlpAttrs sampleExternals (some bigMessageEvent) =
      .mk [{ Key := "type", StringValue := "SENT", Type_ := .STRING },
           { Key := "id", IntValue := -1, Type_ := .INT },
           { Key := "usize", IntValue := -9223372036854775808, Type_ := .INT },
           { Key := "csize", IntValue := -9223372036854775803, Type_ := .INT }] ∧
      (-1 : Int) ≠ (bigMessageEvent.Id : Int) ∧
      (-9223372036854775808 : Int) ≠ (bigMessageEvent.UncompressedSize : Int) ∧
      (-9223372036854775803 : Int) ≠ (bigMessageEvent.CompressedSize : Int) := by
  decide

/-- C17, amended: the three integer attributes produced by `ocMessageEventToOtlpAttrs` are the
`int64` conversions of the `uint64` id, uncompressed size and compressed size: each lies in the
signed 64-bit range, is congruent to the input modulo `2^64`, equals the input when the input is
below `2^63`, and is the input minus `2^64` otherwise. -/
theorem ocMessageEventToOtlpAttrs_int64 (ext : Externals)
    (m : octrace.Span_TimeEvent_MessageEvent)
    (hi : m.Id < 18446744073709551616) (hu : m.UncompressedSize < 18446744073709551616)
    (hc : m.CompressedSize < 18446744073709551616) :
    ∃ t i u c, ocMessageEventToOtlpAttrs ext (some m) =
        .mk [t, { Key := ext.OCTimeEventMessageEventID, IntValue := i, Type_ := .INT },
             { Key := ext.OCTimeEventMessageEventUSize, IntValue := u, Type_ := .INT },
             { Key := ext.OCTimeEventMessageEventCSize, IntValue := c, Type_ := .INT }] ∧
      i = (if m.Id < 9223372036854775808 then (m.Id : Int)
        else (m.Id : Int) - 18446744073709551616) ∧
      u = (if m.UncompressedSize < 9223372036854775808 then (m.UncompressedSize : Int)
        else (m.UncompressedSize : Int) - 18446744073709551616) ∧
      c = (if m.CompressedSize < 9223372036854775808 then (m.CompressedSize : Int)
        else (m.CompressedSize : Int) - 18446744073709551616) ∧
      (-9223372036854775808 ≤ i ∧ i < 9223372036854775808) ∧
      (-9223372036854775808 ≤ u ∧ u < 9223372036854775808) ∧
      (-9223372036854775808 ≤ c ∧ c < 9223372036854775808) ∧
      i % 18446744073709551616 = m.Id ∧
      u % 18446744073709551616 = m.UncompressedSize ∧
      c % 18446744073709551616 = m.CompressedSize := by
  refine ⟨_, int64 m.Id, int64 m.UncompressedSize, int64 m.CompressedSize, rfl, ?_, ?_, ?_, ?_,
    ?_, ?_, ?_, ?_, ?_⟩ <;> unfold int64 <;> omega

/-- Witness for C17 (amended): id 7, sizes 100 and 40. -/
theorem ocMessageEventToOtlpAttrs_int64_witness :
    ∃ t i u c, ocMessageEventToOtlpAttrs sampleExternals (some smallMessageEvent) =
        .mk [t, { Key := sampleExternals.OCTimeEventMessageEventID, IntValue := i, Type_ := .INT },
             { Key := sampleExternals.OCTimeEventMessageEventUSize, IntValue := u, Type_ := .INT },
             { Key := sampleExternals.OCTimeEventMessageEventCSize, IntValue := c,
               Type_ := .INT }] ∧
      i = (if smallMessageEvent.Id < 9223372036854775808 then (smallMessageEvent.Id : Int)
        else (smallMessageEvent.Id : Int) - 18446744073709551616) ∧
      u = (if smallMessageEvent.UncompressedSize < 9223372036854775808
        then (smallMessageEvent.UncompressedSize : Int)
        else (smallMessageEvent.UncompressedSize : Int) - 18446744073709551616) ∧
      c = (if smallMessageEvent.CompressedSize < 9223372036854775808
        then (smallMessageEvent.CompressedSize : Int)
        else (smallMessageEvent.CompressedSize : Int) - 18446744073709551616) ∧
      (-9223372036854775808 ≤ i ∧ i < 9223372036854775808) ∧
      (-9223372036854775808 ≤ u ∧ u < 9223372036854775808) ∧
      (-9223372036854775808 ≤ c ∧ c < 9223372036854775808) ∧
      i % 18446744073709551616 = smallMessageEvent.Id ∧
      u % 18446744073709551616 = smallMessageEvent.UncompressedSize ∧
      c % 18446744073709551616 = smallMessageEvent.CompressedSize :=
  ocMessageEventToOtlpAttrs_int64 sampleExternals smallMessageEvent (by decide) (by decide)
    (by decide)

end tracetranslator

namespace tracetranslator

/-- C18: for every non-nil time-events collection (that `ocEventsToOtlp` can read) with a
non-empty detailed list, nil entries are skipped and exactly one event is emitted per non-nil
entry, in input order (each event carries its entry's timestamp), so the output length is the
number of non-nil entries; the skipped entries are not counted either: the dropped count returned
is the `uint32` conversion of the 32-bit sum of the two sub-counters, whatever the list holds
(their exact sum for non-negative counters).  An entry whose payload is neither an annotation nor
a message event yields an event with the fixed diagnostic name and no attributes. -/
theorem ocEventsToOtlp_one_per_entry (ext : Externals) (es : octrace.Span_TimeEvents)
    (hsafe : eventsSafe (some es) = true) (hne : es.TimeEvent ≠ []) :
    ∃ l, ocEventsToOtlp ext (some es) =
        .ok (.mk l, uint32 (int32 (es.DroppedMessageEventsCount + es.DroppedAnnotationsCount))) ∧
      l.length = (es.TimeEvent.filterMap id).length ∧
      List.Forall₂
        (fun e out => out.TimeUnixNano = timestampToUnixNano ext e.Time ∧
          ((e.Value = .unset ∨ ∃ tag, e.Value = .other tag) →
            out = { TimeUnixNano := timestampToUnixNano ext e.Time,
                    Name := "An unknown OpenCensus TimeEvent type was detected when translating to OTLP",
                    Attributes := .nil,
                    DroppedAttributesCount := 0 }))
        (es.TimeEvent.filterMap id) l ∧
      (0 ≤ es.DroppedMessageEventsCount → es.DroppedMessageEventsCount < 2147483648 →
        0 ≤ es.DroppedAnnotationsCount → es.DroppedAnnotationsCount < 2147483648 →
        ((uint32 (int32 (es.DroppedMessageEventsCount + es.DroppedAnnotationsCount)) : Nat) : Int)
          = es.DroppedMessageEventsCount + es.DroppedAnnotationsCount) := by
  obtain ⟨r, hr, _, hmk, hf⟩ := ocEventsToOtlp_some_ok ext es hsafe
  rw [hmk hne] at hr
  refine ⟨r.toList, hr, hf.length_eq.symm, hf.imp ?_,
    fun h1 h2 h3 h4 => uint32_int32_sum _ _ h1 h2 h3 h4⟩
  intro e out he
  refine ⟨ocEventsToOtlp_event_time ext e out he, ?_⟩
  intro hv
  obtain ⟨time, val⟩ := e
  rcases hv with hv | ⟨tag, hv⟩
  · simp only at hv
    subst hv
    simp only [ocEventsToOtlp_event, Except.ok.injEq] at he
    exact he.symm
  · simp only at hv
    subst hv
    simp only [ocEventsToOtlp_event, Except.ok.injEq] at he
    exact he.symm

/-- Witness for C18: the sample collection (message event, nil entry, annotation, unset
payload). -/
theorem ocEventsToOtlp_one_per_entry_witness :
    ∃ l, ocEventsToOtlp sampleExternals (some sampleEvents) =
        .ok (.mk l, uint32 (int32
          (sampleEvents.DroppedMessageEventsCount + sampleEvents.DroppedAnnotationsCount))) ∧
      l.length = (sampleEvents.TimeEvent.filterMap id).length ∧
      List.Forall₂
        (fun e out => out.TimeUnixNano = timestampToUnixNano sampleExternals e.Time ∧
          ((e.Value = .unset ∨ ∃ tag, e.Value = .other tag) →
            out = { TimeUnixNano := timestampToUnixNano sampleExternals e.Time,
                    Name := "An unknown OpenCensus TimeEvent type was detected when translating to OTLP",
                    Attributes := .nil,
                    DroppedAttributesCount := 0 }))
        (sampleEvents.TimeEvent.filterMap id) l ∧
      (0 ≤ sampleEvents.DroppedMessageEventsCount →
        sampleEvents.DroppedMessageEventsCount < 2147483648 →
        0 ≤ sampleEvents.DroppedAnnotationsCount →
        sampleEvents.DroppedAnnotationsCount < 2147483648 →
        ((uint32 (int32
          (sampleEvents.DroppedMessageEventsCount + sampleEvents.DroppedAnnotationsCount)) : Nat) :
            Int)
          = sampleEvents.DroppedMessageEventsCount + sampleEvents.DroppedAnnotationsCount) :=
  ocEventsToOtlp_one_per_entry sampleExternals sampleEvents (by decide) (by decide)

/-- C19: for every annotation payload with a present annotation, the event emitted by
`ocEventsToOtlp` (on a collection it can read) has the annotation's description text as its name
and, as attributes and dropped-attribute count, the result of `ocAttrsToOtlp` on the annotation's
own attribute collection; the events-level dropped count is computed from the two events-level
sub-counters alone (their sum, for non-negative 32-bit counters), whatever the annotations
contain. -/
theorem ocEventsToOtlp_annotation (ext : Externals) (es : octrace.Span_TimeEvents)
    (hsafe : eventsSafe (some es) = true) :
    ∃ r, ocEventsToOtlp ext (some es) =
        .ok (r, uint32 (int32 (es.DroppedMessageEventsCount + es.DroppedAnnotationsCount))) ∧
      List.Forall₂
        (fun e out => ∀ ann, e.Value = .Annotation_ (some { Annotation := some ann }) →
          out.Name = truncableStringToStr ann.Description ∧
          ocAttrsToOtlp ann.Attributes = .ok (out.Attributes, out.DroppedAttributesCount))
        (es.TimeEvent.filterMap id) r.toList ∧
      (0 ≤ es.DroppedMessageEventsCount → es.DroppedMessageEventsCount < 2147483648 →
        0 ≤ es.DroppedAnnotationsCount → es.DroppedAnnotationsCount < 2147483648 →
        ((uint32 (int32 (es.DroppedMessageEventsCount + es.DroppedAnnotationsCount)) : Nat) : Int)
          = es.DroppedMessageEventsCount + es.DroppedAnnotationsCount) := by
  obtain ⟨r, hr, _, _, hf⟩ := ocEventsToOtlp_some_ok ext es hsafe
  exact ⟨r, hr, hf.imp (fun e out he ann hv => ocEventsToOtlp_event_annotation ext e out ann he hv),
    fun h1 h2 h3 h4 => uint32_int32_sum _ _ h1 h2 h3 h4⟩

/-- Witness for C19: the sample collection, whose annotation carries the sample attributes (with
their own dropped count of 5). -/
theorem ocEventsToOtlp_annotation_witness :
    ∃ r, ocEventsToOtlp sampleExternals (some sampleEvents) =
        .ok (r, uint32 (int32
          (sampleEvents.DroppedMessageEventsCount + sampleEvents.DroppedAnnotationsCount))) ∧
      List.Forall₂
        (fun e out => ∀ ann, e.Value = .Annotation_ (some { Annotation := some ann }) →
          out.Name = truncableStringToStr ann.Description ∧
          ocAttrsToOtlp ann.Attributes = .ok (out.Attributes, out.DroppedAttributesCount))
        (sampleEvents.TimeEvent.filterMap id) r.toList ∧
      (0 ≤ sampleEvents.DroppedMessageEventsCount →
        sampleEvents.DroppedMessageEventsCount < 2147483648 →
        0 ≤ sampleEvents.DroppedAnnotationsCount →
        sampleEvents.DroppedAnnotationsCount < 2147483648 →
        ((uint32 (int32
          (sampleEvents.DroppedMessageEventsCount + sampleEvents.DroppedAnnotationsCount)) : Nat) :
            Int)
          = sampleEvents.DroppedMessageEventsCount + sampleEvents.DroppedAnnotationsCount) :=
  ocEventsToOtlp_annotation sampleExternals sampleEvents (by decide)

/-- C15: `ocStatusToOtlp` returns nil exactly when the input status is nil, and for a non-nil
status the output has the same numeric code and the same message text. -/
theorem ocStatusToOtlp_copies (ocStatus : Option octrace.Status) :
    (ocStatusToOtlp ocStatus = none ↔ ocStatus = none) ∧
      ∀ st : octrace.Status,
        ocStatusToOtlp (some st) = some { Code := st.Code, Message := st.Message } := by
  refine ⟨?_, fun _ => rfl⟩
  cases ocStatus with
  | none => exact ⟨fun _ => rfl, fun _ => rfl⟩
  | some st => exact ⟨fun h => by simp [ocStatusToOtlp] at h, fun h => by cases h⟩

/-- C16 fails on the code: a span whose attribute map holds a nil value, a span whose trace state
holds a nil entry, and a span with a link whose attribute map holds a nil value each make
`OCToOTLP` dereference a nil pointer. -/
theorem OCToOTLP_nil_dereference :
    OCToOTLP sampleResolver sampleExternals nilAttrValueRecord = .error .nilDereference ∧
      OCToOTLP sampleResolver sampleExternals nilTracestateEntryRecord =
        .error .nilDereference ∧
      OCToOTLP sampleResolver sampleExternals nilLinkAttrValueRecord = .error .nilDereference :=
  ⟨rfl, rfl, rfl⟩

end tracetranslator

namespace tracetranslator

theorem ocLinksToOtlp_loop_forall2 (ls : List (Option octrace.Span_Link)) :
    ∀ (acc : List otlptrace.Span_Link),
      (∀ l ∈ ls, ∀ l', l = some l' → linkSafe l' = true) →
      ∃ out, ocLinksToOtlp_loop ls acc = .ok (acc ++ out) ∧
        List.Forall₂ (fun l o => ocLinksToOtlp_link l = .ok o) (ls.filterMap id) out := by
  induction ls with
  | nil => intro acc _; exact ⟨[], by simp [ocLinksToOtlp_loop], List.Forall₂.nil⟩
  | cons l rest ih =>
    intro acc h
    have hrest : ∀ l ∈ rest, ∀ l', l = some l' → linkSafe l' = true :=
      fun l hl => h l (List.mem_cons_of_mem _ hl)
    cases l with
    | none =>
      obtain ⟨out, hout, hf⟩ := ih acc hrest
      exact ⟨out, by simp [ocLinksToOtlp_loop, hout], by simpa using hf⟩
    | some l =>
      obtain ⟨o, ho⟩ := ocLinksToOtlp_link_ok l (h _ (List.mem_cons_self _ _) l rfl)
      obtain ⟨out, hout, hf⟩ := ih (acc ++ [o]) hrest
      exact ⟨o :: out, by simp [ocLinksToOtlp_loop, ho, hout], List.Forall₂.cons ho hf⟩

theorem ocLinksToOtlp_link_fields (l : octrace.Span_Link) (o : otlptrace.Span_Link)
    (h : ocLinksToOtlp_link l = .ok o) :
    o.TraceId = l.TraceId ∧ o.SpanId = l.SpanId ∧
      ocTraceStateToOtlp l.Tracestate = .ok o.TraceState ∧
      ocAttrsToOtlp l.Attributes = .ok (o.Attributes, o.DroppedAttributesCount) := by
  cases ha : ocAttrsToOtlp l.Attributes with
  | error e => simp [ocLinksToOtlp_link, ha] at h
  | ok r =>
    cases ht : ocTraceStateToOtlp l.Tracestate with
    | error e => simp [ocLinksToOtlp_link, ha, ht] at h
    | ok s =>
      simp only [ocLinksToOtlp_link, ha, ht, Except.ok.injEq] at h
      subst h
      exact ⟨rfl, rfl, rfl, rfl⟩

/-- C14, as stated, fails: the dropped count is not the `DroppedLinksCount` field when the field
is negative; a counter of -1 comes out as 4294967295. -/
theorem ocLinksToOtlp_negative_counter :
    ocLinksToOtlp (some negativeCountLinks) = .ok (.nil, 4294967295) ∧
      negativeCountLinks.DroppedLinksCount = -1 ∧
      ((4294967295 : Nat) : Int) ≠ negativeCountLinks.DroppedLinksCount := by
  decide

/-- C14, amended: for every links collection (that `ocLinksToOtlp` can read), the dropped count
returned is the `DroppedLinksCount` field converted to `uint32`, that is reduced modulo `2^32`
(the field itself when it is non-negative), also when the detailed list is empty, in which case
the returned list is nil; no link's nested dropped-attribute count enters it.  Nil entries are
skipped, and the output list consists, in input order, of one link per non-nil entry, with the
entry's trace id and span id, the `ocTraceStateToOtlp` encoding of its trace state, and the
attributes and dropped-attribute count `ocAttrsToOtlp` gives for its own attribute collection.
A nil collection gives (nil, 0). -/
theorem ocLinksToOtlp_links_and_counter (ls : octrace.Span_Links)
    (hsafe : linksSafe (some ls) = true) :
    ∃ r, ocLinksToOtlp (some ls) = .ok (r, uint32 ls.DroppedLinksCount) ∧
      (ls.Link = [] → r = .nil) ∧
      List.Forall₂
        (fun l o => o.TraceId = l.TraceId ∧ o.SpanId = l.SpanId ∧
          ocTraceStateToOtlp l.Tracestate = .ok o.TraceState ∧
          ocAttrsToOtlp l.Attributes = .ok (o.Attributes, o.DroppedAttributesCount))
        (ls.Link.filterMap id) r.toList ∧
      ((uint32 ls.DroppedLinksCount : Nat) : Int) = ls.DroppedLinksCount % 4294967296 ∧
      (0 ≤ ls.DroppedLinksCount → ls.DroppedLinksCount < 2147483648 →
        ((uint32 ls.DroppedLinksCount : Nat) : Int) = ls.DroppedLinksCount) ∧
      ocLinksToOtlp none = .ok (.nil, 0) := by
  have h' : ∀ l ∈ ls.Link, ∀ l', l = some l' → linkSafe l' = true := by
    intro l hl l' hll
    have := (List.all_eq_true.mp (by simpa [linksSafe] using hsafe)) l hl
    simpa [hll] using this
  obtain ⟨out, hout, hf⟩ := ocLinksToOtlp_loop_forall2 ls.Link [] h'
  have hf' := hf.imp (fun l o h => ocLinksToOtlp_link_fields l o h)
  have hmod : ((uint32 ls.DroppedLinksCount : Nat) : Int) =
      ls.DroppedLinksCount % 4294967296 := by
    unfold uint32
    exact Int.toNat_of_nonneg (Int.emod_nonneg _ (by decide))
  have hpos : 0 ≤ ls.DroppedLinksCount → ls.DroppedLinksCount < 2147483648 →
      ((uint32 ls.DroppedLinksCount : Nat) : Int) = ls.DroppedLinksCount := by
    intro h0 h1
    rw [hmod]
    omega
  by_cases hlen : ls.Link.length = 0
  · have hnil : ls.Link = [] := List.length_eq_zero.mp hlen
    refine ⟨.nil, by simp [ocLinksToOtlp, hlen], fun _ => rfl, ?_, hmod, hpos, rfl⟩
    simp [hnil, Slice.toList]
  · refine ⟨.mk out, by simp [ocLinksToOtlp, hlen, hout], ?_, hf', hmod, hpos, rfl⟩
    intro hnil
    exact absurd (by simp [hnil]) hlen

/-- Witness for C14 (amended): the sample links collection. -/
theorem ocLinksToOtlp_links_and_counter_witness :
    ∃ r, ocLinksToOtlp (some sampleLinks) = .ok (r, uint32 sampleLinks.DroppedLinksCount) ∧
      (sampleLinks.Link = [] → r = .nil) ∧
      List.Forall₂
        (fun l o => o.TraceId = l.TraceId ∧ o.SpanId = l.SpanId ∧
          ocTraceStateToOtlp l.Tracestate = .ok o.TraceState ∧
          ocAttrsToOtlp l.Attributes = .ok (o.Attributes, o.DroppedAttributesCount))
        (sampleLinks.Link.filterMap id) r.toList ∧
      ((uint32 sampleLinks.DroppedLinksCount : Nat) : Int) =
        sampleLinks.DroppedLinksCount % 4294967296 ∧
      (0 ≤ sampleLinks.DroppedLinksCount → sampleLinks.DroppedLinksCount < 2147483648 →
        ((uint32 sampleLinks.DroppedLinksCount : Nat) : Int) = sampleLinks.DroppedLinksCount) ∧
      ocLinksToOtlp none = .ok (.nil, 0) :=
  ocLinksToOtlp_links_and_counter sampleLinks (by decide)

end tracetranslator

namespace tracetranslator

theorem GoMap.get_some_mem {V : Type} (m : List (String × Option V)) (key : String) (v : V)
    (h : GoMap.get m key = some v) : (key, some v) ∈ m := by
  induction m with
  | nil => simp [GoMap.get] at h
  | cons kv rest ih =>
    obtain ⟨k, w⟩ := kv
    by_cases hk : k = key
    · simp only [GoMap.get, if_pos hk] at h
      rw [hk, h]
      exact List.mem_cons_self _ _
    · simp only [GoMap.get, if_neg hk] at h
      exact List.mem_cons_of_mem _ (ih h)

theorem GoMap.delete_length {V : Type} (m : List (String × Option V)) (key : String)
    (v : Option V) (hnodup : (m.map Prod.fst).Nodup) (hmem : (key, v) ∈ m) :
    (GoMap.delete m key).length + 1 = m.length := by
  induction m with
  | nil => simp at hmem
  | cons kv rest ih =>
    obtain ⟨k, w⟩ := kv
    simp only [List.map_cons, List.nodup_cons] at hnodup
    by_cases hk : k = key
    · have hall : ∀ kv ∈ rest, kv.1 ≠ key := by
        intro kv hkv heq
        exact hnodup.1 (hk ▸ heq ▸ List.mem_map_of_mem Prod.fst hkv)
      have hrest : GoMap.delete rest key = rest := by
        simp only [GoMap.delete]
        exact List.filter_eq_self.mpr (fun kv hkv => by simpa using hall kv hkv)
      have : GoMap.delete ((k, w) :: rest) key = GoMap.delete rest key := by
        simp [GoMap.delete, List.filter_cons, hk]
      rw [this, hrest, List.length_cons]
    · have hin : (key, v) ∈ rest := by
        rcases List.mem_cons.mp hmem with h | h
        · exact absurd (congrArg Prod.fst h).symm hk
        · exact h
      have : GoMap.delete ((k, w) :: rest) key = (k, w) :: GoMap.delete rest key := by
        simp [GoMap.delete, List.filter_cons, hk]
      rw [this, List.length_cons, List.length_cons, ih hnodup.2 hin]

theorem forall2_exists_right {α β : Type} (R : α → β → Prop) (l1 : List α) (l2 : List β)
    (h : List.Forall₂ R l1 l2) (a : α) (ha : a ∈ l1) : ∃ b ∈ l2, R a b := by
  induction h with
  | nil => simp at ha
  | cons hab _ ih =>
    rcases List.mem_cons.mp ha with rfl | ha
    · exact ⟨_, List.mem_cons_self _ _, hab⟩
    · obtain ⟨b, hb, hr⟩ := ih ha
      exact ⟨b, List.mem_cons_of_mem _ hb, hr⟩

theorem ocSpanToOtlp_ok_fields {R : Type} (ext : Externals) (s : octrace.Span R)
    (h : spanSafe s = true) :
    ∃ t, ocSpanToOtlp ext s =
        .ok (t, { s with Attributes := (ocSpanKindToOtlp ext s.Kind s.Attributes).2 }) ∧
      ocAttrsToOtlp s.Attributes = .ok (t.Attributes, t.DroppedAttributesCount) ∧
      t.Kind = (ocSpanKindToOtlp ext s.Kind s.Attributes).1 := by
  have h1 : ((attrsSafe s.Attributes = true ∧ eventsSafe s.TimeEvents = true) ∧
      linksSafe s.Links = true) ∧ tracestateSafe s.Tracestate = true := by
    simpa [spanSafe] using h
  obtain ⟨a, ha⟩ := ocAttrsToOtlp_ok s.Attributes h1.1.1.1
  obtain ⟨e, he⟩ := ocEventsToOtlp_ok ext s.TimeEvents h1.1.1.2
  obtain ⟨l, hl⟩ := ocLinksToOtlp_ok s.Links h1.1.2
  obtain ⟨ts, hts⟩ := ocTraceStateToOtlp_ok s.Tracestate h1.2
  simp only [ocSpanToOtlp, ha, he, hl, hts]
  exact ⟨_, rfl, rfl, rfl⟩

theorem ocSpanKindToOtlp_kind_delete (ext : Externals) (a : octrace.Span_Attributes)
    (ts : octrace.TruncatableString)
    (hget : GoMap.get a.AttributeMap ext.TagSpanKind =
      some { Value := .StringValue (some { StringValue := some ts }) })
    (hval : ts.Value = "producer" ∨ ts.Value = "consumer") :
    ocSpanKindToOtlp ext .SPAN_KIND_UNSPECIFIED (some a) =
      (if ts.Value = "producer" then .PRODUCER else .CONSUMER,
        some { a with AttributeMap := GoMap.delete a.AttributeMap ext.TagSpanKind }) := by
  rcases hval with hv | hv
  · simp [ocSpanKindToOtlp, hget, truncableStringToStr, hv, OpenTracingSpanKindConsumer,
      OpenTracingSpanKindProducer]
  · simp [ocSpanKindToOtlp, hget, truncableStringToStr, hv, OpenTracingSpanKindConsumer]

theorem ocSpanKindToOtlp_get_none (ext : Externals) (a : octrace.Span_Attributes)
    (h : GoMap.get a.AttributeMap ext.TagSpanKind = none) :
    ocSpanKindToOtlp ext .SPAN_KIND_UNSPECIFIED (some a) = (.SPAN_KIND_UNSPECIFIED, some a) := by
  simp [ocSpanKindToOtlp, h]

/-- C20: in `ocSpanToOtlp` the attributes are converted before the kind is resolved.  For every
legacy span (that `ocSpanToOtlp` can read) of kind UNSPECIFIED whose attribute map (a Go map:
keys distinct) holds the sentinel key with the string value "producer" or "consumer", the
translated span has kind PRODUCER or CONSUMER and its attribute list still holds the string
attribute of the sentinel key, with as many attributes as the map had entries before the call;
the span left behind has the sentinel entry deleted, and translating it again gives kind
UNSPECIFIED and one attribute fewer. -/
theorem ocSpanToOtlp_attributes_before_kind {R : Type} (ext : Externals) (s : octrace.Span R)
    (a : octrace.Span_Attributes) (ts : octrace.TruncatableString)
    (hsafe : spanSafe s = true) (hkind : s.Kind = .SPAN_KIND_UNSPECIFIED)
    (hattrs : s.Attributes = some a) (hnodup : (a.AttributeMap.map Prod.fst).Nodup)
    (hget : GoMap.get a.AttributeMap ext.TagSpanKind =
      some { Value := .StringValue (some { StringValue := some ts }) })
    (hval : ts.Value = "producer" ∨ ts.Value = "consumer") :
    ∃ (t : otlptrace.Span) (s' : octrace.Span R) (l : List otlpcommon.AttributeKeyValue),
      ocSpanToOtlp ext s = .ok (t, s') ∧
      t.Kind = (if ts.Value = "producer" then .PRODUCER else .CONSUMER) ∧
      t.Attributes = .mk l ∧
      l.length = a.AttributeMap.length ∧
      ({ Key := ext.TagSpanKind, Type_ := .STRING, StringValue := ts.Value } :
        otlpcommon.AttributeKeyValue) ∈ l ∧
      s' = { s with
        Attributes := some { a with AttributeMap := GoMap.delete a.AttributeMap ext.TagSpanKind } } ∧
      GoMap.get (GoMap.delete a.AttributeMap ext.TagSpanKind) ext.TagSpanKind = none ∧
      ∃ (t2 : otlptrace.Span) (l2 : List otlpcommon.AttributeKeyValue),
        ocSpanToOtlp ext s' = .ok (t2, s') ∧
        t2.Kind = .SPAN_KIND_UNSPECIFIED ∧
        t2.Attributes = .mk l2 ∧
        l2.length + 1 = l.length := by
  obtain ⟨tid, sid, tst, psid, name, kind, st, et, attrs, tev, links, status, res, csc⟩ := s
  simp only at hkind hattrs
  subst hkind hattrs
  have hk := ocSpanKindToOtlp_kind_delete ext a ts hget hval
  have hgone := GoMap.get_delete_self a.AttributeMap ext.TagSpanKind
  have h1 : ((attrsSafe (some a) = true ∧ eventsSafe tev = true) ∧ linksSafe links = true) ∧
      tracestateSafe tst = true := by
    simpa [spanSafe] using hsafe
  have hsa : attrsSafe (some a) = true := h1.1.1.1
  -- first translation
  obtain ⟨t, ht, hta, htk⟩ := ocSpanToOtlp_ok_fields ext _ hsafe
  obtain ⟨l, hl, hf⟩ := ocAttrsToOtlp_some_ok a hsa
  simp only at hta htk ht
  rw [hl, Except.ok.injEq, Prod.mk.injEq] at hta
  rw [hk] at htk ht
  simp only at htk ht
  -- the sentinel's own output attribute
  obtain ⟨out, hout, hentry⟩ := forall2_exists_right _ _ _ hf _
    (GoMap.get_some_mem _ _ _ hget)
  have hout' : out = { Key := ext.TagSpanKind, Type_ := .STRING, StringValue := ts.Value } := by
    simp only [ocAttrsToOtlp_entry, truncableStringToStr, Except.ok.injEq] at hentry
    exact hentry.symm
  -- second translation
  have hall : ∀ kv ∈ a.AttributeMap, attrValueSafe kv.2 = true := by
    simpa [attrsSafe, List.all_eq_true] using hsa
  have hdel : attrsSafe (some
      { a with AttributeMap := GoMap.delete a.AttributeMap ext.TagSpanKind }) = true := by
    simp only [attrsSafe, List.all_eq_true]
    intro kv hkv
    exact hall kv ((GoMap.mem_delete _ _ kv).mp hkv).1
  have hsafe2 : spanSafe (
      { TraceId := tid, SpanId := sid, Tracestate := tst, ParentSpanId := psid, Name := name,
        Kind := .SPAN_KIND_UNSPECIFIED, StartTime := st, EndTime := et,
        Attributes := some { a with AttributeMap := GoMap.delete a.AttributeMap ext.TagSpanKind },
        TimeEvents := tev, Links := links, Status := status, Resource := res,
        ChildSpanCount := csc } : octrace.Span R) = true := by
    simp [spanSafe, hdel, h1.1.1.2, h1.1.2, h1.2]
  obtain ⟨t2, ht2, ht2a, ht2k⟩ := ocSpanToOtlp_ok_fields ext _ hsafe2
  obtain ⟨l2, hl2, hf2⟩ := ocAttrsToOtlp_some_ok _ hdel
  have hunspec := ocSpanKindToOtlp_get_none ext
    { a with AttributeMap := GoMap.delete a.AttributeMap ext.TagSpanKind } hgone
  simp only at ht2a ht2k ht2
  rw [hl2, Except.ok.injEq, Prod.mk.injEq] at ht2a
  rw [hunspec] at ht2k ht2
  refine ⟨t, _, l, ht, htk, hta.1.symm, hf.length_eq.symm, hout' ▸ hout, rfl, hgone,
    t2, l2, ht2, ht2k, ht2a.1.symm, ?_⟩
  rw [← hf.length_eq, ← hf2.length_eq]
  exact GoMap.delete_length _ _ _ hnodup (GoMap.get_some_mem _ _ _ hget)

/-- Witness for C20: the sample span whose sentinel key holds "producer" between two other
entries. -/
theorem ocSpanToOtlp_attributes_before_kind_witness :
    ∃ (t : otlptrace.Span) (s' : octrace.Span Nat) (l : List otlpcommon.AttributeKeyValue),
      ocSpanToOtlp sampleExternals (kindSpan "producer") = .ok (t, s') ∧
      t.Kind = (if ("producer" : String) = "producer" then .PRODUCER else .CONSUMER) ∧
      t.Attributes = .mk l ∧
      l.length = (kindAttrs "producer").AttributeMap.length ∧
      ({ Key := sampleExternals.TagSpanKind, Type_ := .STRING, StringValue := "producer" } :
        otlpcommon.AttributeKeyValue) ∈ l ∧
      s' = { kindSpan "producer" with
        Attributes := some { kindAttrs "producer" with
          AttributeMap :=
            GoMap.delete (kindAttrs "producer").AttributeMap sampleExternals.TagSpanKind } } ∧
      GoMap.get (GoMap.delete (kindAttrs "producer").AttributeMap sampleExternals.TagSpanKind)
        sampleExternals.TagSpanKind = none ∧
      ∃ (t2 : otlptrace.Span) (l2 : List otlpcommon.AttributeKeyValue),
        ocSpanToOtlp sampleExternals s' = .ok (t2, s') ∧
        t2.Kind = .SPAN_KIND_UNSPECIFIED ∧
        t2.Attributes = .mk l2 ∧
        l2.length + 1 = l.length :=
  ocSpanToOtlp_attributes_before_kind sampleExternals (kindSpan "producer")
    (kindAttrs "producer") { Value := "producer", TruncatedByteCount := 0 }
    (by decide) rfl rfl (by decide) (by decide) (Or.inl rfl)

end tracetranslator
